import Mathlib

/-!
TAFAnalizer: store, broker and task runner.

A shallow embedding of `DataLayer` (the TTL key-value store), `NetworkLayer`
(the topic broker) and `ApplicationInterface` (the task runner), with the
properties proved of them.

Modelling conventions.

* `std::unordered_map<std::string, V>` is an association list
  `List (String × V)`. `find` returns the first binding of a key, `erase`
  drops every binding of a key and `assign` (the statement `m[k] = v`)
  overwrites the binding of a key in place or appends a new one. The
  iteration order of the list stands for the unspecified iteration order of
  the hash table.
* `uint32_t` values are natural numbers; arithmetic that can leave the range
  is reduced modulo `2 ^ 32` explicitly. `int32_t` values are integers.
* Every operation that calls `millis()` takes the value it read as the
  argument `now`.
* `xSemaphoreTake(m, portMAX_DELAY)` blocks until the mutex is taken, so in
  this sequential model the take always succeeds and the branch for a failed
  take is not represented.
* The outcome of a FreeRTOS allocation (`xSemaphoreCreateMutex`,
  `xTaskCreate`) is an argument of the operation that performs it: `some h`
  for a non-null handle, `none` for a failure.
-/

namespace TAF

/-- The modulus of `uint32_t` arithmetic. -/
def U32 : Nat := 2 ^ 32

/-- Conversion of a `uint32_t` value to `int32_t` (two's complement). -/
def toInt32 (n : Nat) : Int :=
  if n % U32 < 2 ^ 31 then ((n % U32 : Nat) : Int) else ((n % U32 : Nat) : Int) - (U32 : Int)

/-- Subtraction of two `uint32_t` values. -/
def sub32 (a b : Nat) : Nat := (a % U32 + U32 - b % U32) % U32

/-- Addition of two `uint32_t` values. -/
def add32 (a b : Nat) : Nat := (a + b) % U32

/-! ## `std::unordered_map` with string keys -/

namespace UMap

/-- The lookup `m.find(k)`: the bound value, or `none` for `m.end()`. -/
def find {β : Type} : List (String × β) → String → Option β
  | [], _ => none
  | (k', v) :: rest, k => if k' = k then some v else find rest k

/-- The removal `m.erase(k)`. -/
def erase {β : Type} (m : List (String × β)) (k : String) : List (String × β) :=
  m.filter (fun p => decide (p.1 ≠ k))

/-- The assignment `m[k] = v`. -/
def assign {β : Type} : List (String × β) → String → β → List (String × β)
  | [], k, v => [(k, v)]
  | (k', v') :: rest, k, v =>
    if k' = k then (k, v) :: rest else (k', v') :: assign rest k v

end UMap

/-! ## DataLayer -/

/-- The byte vector `std::vector<uint8_t>`. -/
abbrev Bytes := List Nat

/-- The record `DataLayer::DataEntry`. -/
structure DataEntry where
  value : Bytes
  expiryTime : Nat
  createdTime : Nat
  deriving DecidableEq, Repr

/-- The state of a `DataLayer` object. -/
structure DataLayer where
  dataMutex_ : Option Nat
  cleanupTask_ : Option Nat
  data_ : List (String × DataEntry)
  cleanupIntervalMs_ : Nat
  initialized_ : Bool
  deriving DecidableEq, Repr

namespace DataLayer

/-- The constructor `DataLayer::DataLayer()`. -/
def new : DataLayer :=
  { dataMutex_ := none, cleanupTask_ := none, data_ := [],
    cleanupIntervalMs_ := 5000, initialized_ := false }

/-- The method `DataLayer::init`; `mutex` is what `xSemaphoreCreateMutex`
returns and `task` the handle `xTaskCreate` stores when it passes. -/
def init (s : DataLayer) (cleanupIntervalMs : Nat) (mutex task : Option Nat) :
    Bool × DataLayer :=
  if s.initialized_ then (true, s)
  else
    let s1 := { s with cleanupIntervalMs_ := cleanupIntervalMs, dataMutex_ := mutex }
    match mutex with
    | none => (false, s1)
    | some _ =>
      match task with
      | none => (false, { s1 with dataMutex_ := none })
      | some h => (true, { s1 with cleanupTask_ := some h, initialized_ := true })

/-- The expiry test shared by every read path and by the sweep:
`expiryTime > 0 && currentTime >= expiryTime`. -/
def isExpired (e : DataEntry) (currentTime : Nat) : Bool :=
  decide (e.expiryTime > 0) && decide (currentTime ≥ e.expiryTime)

/-- The method `DataLayer::set`. -/
def set (s : DataLayer) (key : String) (value : Bytes) (ttlMs : Nat) (now : Nat) :
    Bool × DataLayer :=
  if key.isEmpty || !s.initialized_ then (false, s)
  else
    let currentTime := now
    let entry : DataEntry :=
      { value := value
        createdTime := currentTime
        expiryTime := if ttlMs > 0 then add32 currentTime ttlMs else 0 }
    (true, { s with data_ := UMap.assign s.data_ key entry })

/-- The method `DataLayer::get`; the second component is the out-parameter
`value` after the call. -/
def get (s : DataLayer) (key : String) (value : Bytes) (now : Nat) :
    Bool × Bytes × DataLayer :=
  if key.isEmpty || !s.initialized_ then (false, value, s)
  else
    match UMap.find s.data_ key with
    | none => (false, value, s)
    | some e =>
      let currentTime := now
      if isExpired e currentTime then
        (false, value, { s with data_ := UMap.erase s.data_ key })
      else (true, e.value, s)

/-- The method `DataLayer::del`. -/
def del (s : DataLayer) (key : String) : Bool × DataLayer :=
  if key.isEmpty || !s.initialized_ then (false, s)
  else
    match UMap.find s.data_ key with
    | none => (false, s)
    | some _ => (true, { s with data_ := UMap.erase s.data_ key })

/-- The method `DataLayer::exists`. -/
def «exists» (s : DataLayer) (key : String) (now : Nat) : Bool × DataLayer :=
  if key.isEmpty || !s.initialized_ then (false, s)
  else
    match UMap.find s.data_ key with
    | none => (false, s)
    | some e =>
      let currentTime := now
      if isExpired e currentTime then
        (false, { s with data_ := UMap.erase s.data_ key })
      else (true, s)

/-- The scan of `DataLayer::keys`: expired entries are erased, the others
are kept and their keys collected, in iteration order. -/
def keysScan (currentTime : Nat) :
    List (String × DataEntry) → List String × List (String × DataEntry)
  | [] => ([], [])
  | (k, e) :: rest =>
    let r := keysScan currentTime rest
    if isExpired e currentTime then r else (k :: r.1, (k, e) :: r.2)

/-- The method `DataLayer::keys`. -/
def keys (s : DataLayer) (now : Nat) : List String × DataLayer :=
  if !s.initialized_ then ([], s)
  else
    let r := keysScan now s.data_
    (r.1, { s with data_ := r.2 })

/-- The method `DataLayer::expire`. -/
def expire (s : DataLayer) (key : String) (ttlMs : Nat) (now : Nat) : Bool × DataLayer :=
  if key.isEmpty || !s.initialized_ then (false, s)
  else
    match UMap.find s.data_ key with
    | none => (false, s)
    | some e =>
      let currentTime := now
      let entry : DataEntry := { e with expiryTime := add32 currentTime ttlMs }
      (true, { s with data_ := UMap.assign s.data_ key entry })

/-- The method `DataLayer::ttl`. -/
def ttl (s : DataLayer) (key : String) (now : Nat) : Int × DataLayer :=
  if key.isEmpty || !s.initialized_ then (-2, s)
  else
    match UMap.find s.data_ key with
    | none => (-2, s)
    | some e =>
      let currentTime := now
      if isExpired e currentTime then
        (-2, { s with data_ := UMap.erase s.data_ key })
      else if e.expiryTime = 0 then (-1, s)
      else (toInt32 (sub32 e.expiryTime currentTime), s)

/-- The method `DataLayer::size`. -/
def size (s : DataLayer) : Nat :=
  if !s.initialized_ then 0 else s.data_.length

/-- The method `DataLayer::performCleanup`. -/
def performCleanup (s : DataLayer) (now : Nat) : DataLayer :=
  if !s.initialized_ then s
  else
    let currentTime := now
    { s with data_ := s.data_.filter (fun p => !isExpired p.2 currentTime) }

/-- One call on the public interface of the store, or one run of the
background sweep. -/
inductive Op where
  | set (key : String) (value : Bytes) (ttlMs : Nat)
  | get (key : String) (value : Bytes)
  | del (key : String)
  | «exists» (key : String)
  | keys
  | expire (key : String) (ttlMs : Nat)
  | ttl (key : String)
  | size
  | performCleanup
  deriving DecidableEq, Repr

/-- The store after one operation that read the clock value `now`. -/
def Op.apply (s : DataLayer) (now : Nat) : Op → DataLayer
  | .set key value ttlMs => (s.set key value ttlMs now).2
  | .get key value => (s.get key value now).2.2
  | .del key => (s.del key).2
  | .«exists» key => (s.«exists» key now).2
  | .keys => (s.keys now).2
  | .expire key ttlMs => (s.expire key ttlMs now).2
  | .ttl key => (s.ttl key now).2
  | .size => s
  | .performCleanup => s.performCleanup now

/-- Whether the operation is a `set`, `del` or `expire` of the key `k`. -/
def Op.writes (k : String) : Op → Bool
  | .set key _ _ => decide (key = k)
  | .del key => decide (key = k)
  | .expire key _ => decide (key = k)
  | _ => false

/-- The store after a sequence of operations, each paired with the clock
value it read. -/
def run (s : DataLayer) : List (Op × Nat) → DataLayer
  | [] => s
  | (op, now) :: rest => run (op.apply s now) rest

/-- Representation invariant of `data_`: a key is bound at most once. -/
def WF (s : DataLayer) : Prop := (s.data_.map Prod.fst).Nodup

instance (s : DataLayer) : Decidable s.WF := by
  unfold WF; exact inferInstance

/-- An initialised store holding nothing, as `init` leaves a fresh object. -/
def fresh : DataLayer := (DataLayer.new.init 5000 (some 1) (some 2)).2

/-- One step in the life of a store: a call of `init`, or an operation or
sweep. -/
inductive StoreStep where
  | init (cleanupIntervalMs : Nat) (mutex task : Option Nat)
  | op (o : Op)
  deriving DecidableEq, Repr

/-- The store after one step that read the clock value `now`. -/
def StoreStep.apply (s : DataLayer) (now : Nat) : StoreStep → DataLayer
  | .init cleanupIntervalMs mutex task => (s.init cleanupIntervalMs mutex task).2
  | .op o => o.apply s now

/-- The store reached from a newly constructed one by a sequence of steps,
each paired with the clock value it read. -/
def reach (steps : List (StoreStep × Nat)) : DataLayer :=
  steps.foldl (fun s p => p.1.apply s p.2) DataLayer.new

end DataLayer

/-! ## NetworkLayer -/

/-- The callable `NetworkLayer::MessageCallback`, a `std::function`: `none`
is the empty function object, `some i` holds the target `i`. -/
abbrev MessageCallback := Option Nat

/-- The state of a `NetworkLayer` object. -/
structure NetworkLayer where
  subscribersMutex_ : Option Nat
  subscribers_ : List (String × List (String × MessageCallback))
  initialized_ : Bool
  deriving DecidableEq, Repr

/-- The heap argument of the delivery task created by `publish`: the tuple
of the topic (a copy of the string), the pointer `data` and `len`. -/
structure DeliveryArgs where
  topic : String
  data : Option Nat
  len : Nat
  deriving DecidableEq, Repr

/-- How a call of a subscriber callback ends. -/
inductive CallOutcome where
  | returned
  | threwStdException
  | threwOther
  deriving DecidableEq, Repr

/-- One call `pair.second(data, len, topic)` made by a delivery, with the
bytes that `data[0 .. len)` held when the call was made. -/
structure Invocation where
  subscriber : String
  callback : MessageCallback
  data : Option Nat
  len : Nat
  topic : String
  observed : Bytes
  deriving DecidableEq, Repr

/-- What one run of `deliverMessage` did: the broker afterwards, the calls
made in order, and whether an exception left `deliverMessage`. -/
structure Delivery where
  broker : NetworkLayer
  calls : List Invocation
  escaped : Bool
  deriving DecidableEq, Repr

/-- Byte-addressed memory. -/
abbrev Memory := Nat → Nat

/-- The bytes `data[0 .. len)`; nothing is read through a null pointer. -/
def readBytes (mem : Memory) (data : Option Nat) (len : Nat) : Bytes :=
  match data with
  | none => []
  | some a => (List.range len).map (fun i => mem (a + i))

/-- The behaviour of the callback targets: what target `i` does to the
broker when it is called (it may subscribe, unsubscribe or publish) and how
the call ends. -/
abbrev Handlers := Nat → NetworkLayer → NetworkLayer × CallOutcome

namespace NetworkLayer

/-- The constructor `NetworkLayer::NetworkLayer()`. -/
def new : NetworkLayer :=
  { subscribersMutex_ := none, subscribers_ := [], initialized_ := false }

/-- The method `NetworkLayer::init`; `mutex` is what
`xSemaphoreCreateMutex` returns. -/
def init (nl : NetworkLayer) (mutex : Option Nat) : Bool × NetworkLayer :=
  if nl.initialized_ then (true, nl)
  else
    match mutex with
    | none => (false, { nl with subscribersMutex_ := none })
    | some m => (true, { nl with subscribersMutex_ := some m, initialized_ := true })

/-- The method `NetworkLayer::subscribe`. The statement
`subscribers_[topic][appName] = callback` creates the bucket of the topic
when there is none. -/
def subscribe (nl : NetworkLayer) (topic appName : String) (callback : MessageCallback) :
    Bool × NetworkLayer :=
  if topic.isEmpty || appName.isEmpty || callback.isNone then (false, nl)
  else if !nl.initialized_ then (false, nl)
  else
    let bucket := (UMap.find nl.subscribers_ topic).getD []
    let bucket1 := UMap.assign bucket appName callback
    (true, { nl with subscribers_ := UMap.assign nl.subscribers_ topic bucket1 })

/-- The method `NetworkLayer::unsubscribe`. -/
def unsubscribe (nl : NetworkLayer) (topic appName : String) : Bool × NetworkLayer :=
  if topic.isEmpty || appName.isEmpty then (false, nl)
  else if !nl.initialized_ then (false, nl)
  else
    match UMap.find nl.subscribers_ topic with
    | some bucket =>
      let bucket1 := UMap.erase bucket appName
      if bucket1.isEmpty then
        (true, { nl with subscribers_ := UMap.erase nl.subscribers_ topic })
      else
        (true, { nl with subscribers_ := UMap.assign nl.subscribers_ topic bucket1 })
    | none => (true, nl)

/-- The method `NetworkLayer::publish`. `taskCreated` tells whether the
call of `xTaskCreate` passed; the second component is the delivery task
that was created, if any. The value `xTaskCreate` returns is not looked
at. -/
def publish (nl : NetworkLayer) (topic : String) (data : Option Nat) (len : Nat)
    (_publisher : String) (taskCreated : Bool) : Bool × Option DeliveryArgs :=
  if topic.isEmpty || data.isNone || len == 0 then (false, none)
  else if !nl.initialized_ then (false, none)
  else
    (true, if taskCreated then some { topic := topic, data := data, len := len } else none)

/-- The method `NetworkLayer::hasSubscribers`. -/
def hasSubscribers (nl : NetworkLayer) (topic : String) : Bool :=
  if !nl.initialized_ then false
  else
    match UMap.find nl.subscribers_ topic with
    | some bucket => !bucket.isEmpty
    | none => false

/-- The method `NetworkLayer::getSubscriberCount`. -/
def getSubscriberCount (nl : NetworkLayer) (topic : String) : Nat :=
  if !nl.initialized_ then 0
  else
    match UMap.find nl.subscribers_ topic with
    | some bucket => bucket.length
    | none => 0

/-- The method `NetworkLayer::getTopics`. -/
def getTopics (nl : NetworkLayer) : List String :=
  if !nl.initialized_ then [] else nl.subscribers_.map Prod.fst

/-- One call of a callback: an empty function object throws
`std::bad_function_call`, which derives from `std::exception`. -/
def invoke (handlers : Handlers) (callback : MessageCallback) (nl : NetworkLayer) :
    NetworkLayer × CallOutcome :=
  match callback with
  | none => (nl, CallOutcome.threwStdException)
  | some i => handlers i nl

/-- The loop of `deliverMessage` over the copy of the bucket. The handler
`catch (const std::exception&)` takes an exception of that family and the
loop goes on; any other exception leaves the loop and the function. -/
def deliverLoop (handlers : Handlers) (mem : Memory) (topic : String) (data : Option Nat)
    (len : Nat) : List (String × MessageCallback) → NetworkLayer → Delivery
  | [], nl => { broker := nl, calls := [], escaped := false }
  | (name, cb) :: rest, nl =>
    let call : Invocation :=
      { subscriber := name, callback := cb, data := data, len := len, topic := topic,
        observed := readBytes mem data len }
    match invoke handlers cb nl with
    | (nl1, CallOutcome.threwOther) => { broker := nl1, calls := [call], escaped := true }
    | (nl1, _) =>
      let r := deliverLoop handlers mem topic data len rest nl1
      { r with calls := call :: r.calls }

/-- The method `NetworkLayer::deliverMessage`, run when memory is `mem`. -/
def deliverMessage (nl : NetworkLayer) (topic : String) (data : Option Nat) (len : Nat)
    (mem : Memory) (handlers : Handlers) : Delivery :=
  match UMap.find nl.subscribers_ topic with
  | some subscribersCopy => deliverLoop handlers mem topic data len subscribersCopy nl
  | none => { broker := nl, calls := [], escaped := false }

/-- The body of the task created by `publish`: it calls `deliverMessage`
with the fields of its argument tuple. -/
def runDeliveryTask (nl : NetworkLayer) (args : DeliveryArgs) (mem : Memory)
    (handlers : Handlers) : Delivery :=
  nl.deliverMessage args.topic args.data args.len mem handlers

/-- Representation invariant of `subscribers_`: a topic has at most one
bucket and a bucket binds a name at most once. -/
def WF (nl : NetworkLayer) : Prop :=
  (nl.subscribers_.map Prod.fst).Nodup ∧
    ∀ p ∈ nl.subscribers_, (p.2.map Prod.fst).Nodup

instance (nl : NetworkLayer) : Decidable nl.WF := by
  unfold WF; exact inferInstance

/-- An initialised broker with no subscriber, as `init` leaves a fresh
object. -/
def fresh : NetworkLayer := (NetworkLayer.new.init (some 1)).2

/-- Callback targets that all return normally and leave the broker alone. -/
def quietHandlers : Handlers := fun _ nl => (nl, CallOutcome.returned)

/-- Callback targets of which target 1 throws an exception that does not
derive from `std::exception` (such as `throw 42`) and the others return. -/
def throwingHandlers : Handlers :=
  fun i nl => if i = 1 then (nl, CallOutcome.threwOther) else (nl, CallOutcome.returned)

/-- Callback targets of which target 1 throws a `std::runtime_error` and
the others return. -/
def stdThrowingHandlers : Handlers :=
  fun i nl => if i = 1 then (nl, CallOutcome.threwStdException) else (nl, CallOutcome.returned)

/-- Memory in which the byte at address 100 is `b` and every other byte
is 0. -/
def memWith (b : Nat) : Memory := fun a => if a = 100 then b else 0

/-- The call a delivery makes for one entry of the copied bucket. -/
def callOf (mem : Memory) (topic : String) (data : Option Nat) (len : Nat)
    (p : String × MessageCallback) : Invocation :=
  { subscriber := p.1, callback := p.2, data := data, len := len, topic := topic,
    observed := readBytes mem data len }

/-- The callback registered for a topic under a name, if there is one:
the entry `subscribers_[topic][appName]`, looked up without creating it. -/
def subscription (nl : NetworkLayer) (topic appName : String) : Option MessageCallback :=
  match UMap.find nl.subscribers_ topic with
  | some bucket => UMap.find bucket appName
  | none => none

/-- No bucket of the registry is empty. -/
def NoEmptyBucket (nl : NetworkLayer) : Prop := ∀ p ∈ nl.subscribers_, p.2 ≠ []

instance (nl : NetworkLayer) : Decidable nl.NoEmptyBucket := by
  unfold NoEmptyBucket; exact inferInstance

/-- What happens to the registry guard and which callback is called, in
the order of `deliverMessage`: `xSemaphoreTake`, `xSemaphoreGive` and the
calls `pair.second(data, len, topic)`. -/
inductive GuardEvent where
  | take
  | give
  | call (subscriber : String) (callback : MessageCallback)
  deriving DecidableEq, Repr

/-- Whether the guard is held after a sequence of events that starts with
the guard free. -/
def guardHeld (events : List GuardEvent) : Bool :=
  events.foldl
    (fun held e =>
      match e with
      | GuardEvent.take => true
      | GuardEvent.give => false
      | GuardEvent.call _ _ => held)
    false

/-- The loop of `deliverMessage` as `deliverLoop`, recording each call as
an event. -/
def deliverLoopTraced (handlers : Handlers) (mem : Memory) (topic : String)
    (data : Option Nat) (len : Nat) :
    List (String × MessageCallback) → NetworkLayer → Delivery × List GuardEvent
  | [], nl => ({ broker := nl, calls := [], escaped := false }, [])
  | (name, cb) :: rest, nl =>
    let call : Invocation :=
      { subscriber := name, callback := cb, data := data, len := len, topic := topic,
        observed := readBytes mem data len }
    match invoke handlers cb nl with
    | (nl1, CallOutcome.threwOther) =>
      ({ broker := nl1, calls := [call], escaped := true }, [GuardEvent.call name cb])
    | (nl1, _) =>
      let r := deliverLoopTraced handlers mem topic data len rest nl1
      ({ r.1 with calls := call :: r.1.calls }, GuardEvent.call name cb :: r.2)

/-- The method `NetworkLayer::deliverMessage` with its guard events: the
guard is taken, the bucket is looked up and copied, the guard is given
back, and then the loop runs; without a bucket the guard is taken and given
back. -/
def deliverMessageTraced (nl : NetworkLayer) (topic : String) (data : Option Nat)
    (len : Nat) (mem : Memory) (handlers : Handlers) : Delivery × List GuardEvent :=
  match UMap.find nl.subscribers_ topic with
  | some subscribersCopy =>
    let r := deliverLoopTraced handlers mem topic data len subscribersCopy nl
    (r.1, GuardEvent.take :: GuardEvent.give :: r.2)
  | none =>
    ({ broker := nl, calls := [], escaped := false }, [GuardEvent.take, GuardEvent.give])

/-- Callback targets of which target 1, while it is called, unsubscribes
`"S2"` from `"y"` and subscribes `"S3"` to it, and the others do nothing. -/
def meddlingHandlers : Handlers :=
  fun i nl =>
    if i = 1 then
      (((nl.unsubscribe "y" "S2").2.subscribe "y" "S3" (some 3)).2, CallOutcome.returned)
    else (nl, CallOutcome.returned)

/-- One call on the public interface of the broker. -/
inductive ApiCall where
  | init (mutex : Option Nat)
  | subscribe (topic appName : String) (callback : MessageCallback)
  | unsubscribe (topic appName : String)
  | publish (topic : String) (data : Option Nat) (len : Nat) (publisher : String)
      (taskCreated : Bool)
  deriving DecidableEq, Repr

/-- The broker after one call on its public interface; `publish` only
creates a delivery task. -/
def ApiCall.apply (nl : NetworkLayer) : ApiCall → NetworkLayer
  | .init mutex => (nl.init mutex).2
  | .subscribe topic appName callback => (nl.subscribe topic appName callback).2
  | .unsubscribe topic appName => (nl.unsubscribe topic appName).2
  | .publish _ _ _ _ _ => nl

/-- What the callback targets do, as programs over the public interface:
the calls target `i` makes on the broker it finds, and how it ends. -/
abbrev Scripts := Nat → NetworkLayer → List ApiCall × CallOutcome

/-- The behaviour of callback targets that act on the broker through its
public interface only. -/
def scriptHandlers (scripts : Scripts) : Handlers :=
  fun i nl => ((scripts i nl).1.foldl ApiCall.apply nl, (scripts i nl).2)

/-- One step in the life of a broker: a call on its public interface, or
the run of a delivery task whose callbacks act through that interface. -/
inductive BrokerStep where
  | api (c : ApiCall)
  | deliver (topic : String) (data : Option Nat) (len : Nat) (mem : Memory)
      (scripts : Scripts)

/-- The broker after one step. -/
def BrokerStep.apply (nl : NetworkLayer) : BrokerStep → NetworkLayer
  | .api c => c.apply nl
  | .deliver topic data len mem scripts =>
    (nl.deliverMessage topic data len mem (scriptHandlers scripts)).broker

/-- The broker reached from a newly constructed one by a sequence of
steps. -/
def reach (steps : List BrokerStep) : NetworkLayer :=
  steps.foldl BrokerStep.apply NetworkLayer.new

end NetworkLayer

/-! ## ApplicationInterface -/

/-- The state of an `ApplicationInterface` object (the pointers to the two
layers are opaque addresses). -/
structure ApplicationInterface where
  networkLayer_ : Option Nat
  dataLayer_ : Option Nat
  taskHandle_ : Option Nat
  updateFrequencyMs_ : Nat
  deriving DecidableEq, Repr

namespace ApplicationInterface

/-- The constructor `ApplicationInterface::ApplicationInterface()`. -/
def new : ApplicationInterface :=
  { networkLayer_ := none, dataLayer_ := none, taskHandle_ := none, updateFrequencyMs_ := 10 }

/-- The method `ApplicationInterface::createTask`; `created` is the handle
`xTaskCreate` stores in `taskHandle_` when it passes, `none` when it
fails. -/
def createTask (a : ApplicationInterface) (_taskName : String)
    (_stackSize _priority _coreId updateFrequencyMs : Nat) (created : Option Nat) :
    Bool × ApplicationInterface :=
  if a.taskHandle_.isSome then (false, a)
  else
    let a1 := { a with updateFrequencyMs_ := updateFrequencyMs }
    match created with
    | some h => (true, { a1 with taskHandle_ := some h })
    | none => (false, a1)

/-- The method `ApplicationInterface::stopTask`. -/
def stopTask (a : ApplicationInterface) : ApplicationInterface :=
  if a.taskHandle_.isSome then { a with taskHandle_ := none } else a

/-- The method `ApplicationInterface::isTaskRunning`. -/
def isTaskRunning (a : ApplicationInterface) : Bool := a.taskHandle_.isSome

end ApplicationInterface

/-! ## Lemmas on the map operations -/

theorem isEmpty_eq_false_of_ne (k : String) (h : k ≠ "") : k.isEmpty = false := by
  rw [← Bool.not_eq_true, String.isEmpty_iff]
  exact h

namespace UMap

theorem find_assign_self {β : Type} (m : List (String × β)) (k : String) (v : β) :
    find (assign m k v) k = some v := by
  induction m with
  | nil => simp [assign, find]
  | cons p rest ih =>
    obtain ⟨k', v'⟩ := p
    by_cases h : k' = k
    · simp [assign, find, h]
    · simp [assign, find, h, ih]

theorem find_assign_ne {β : Type} (m : List (String × β)) (k k' : String) (v : β)
    (h : k' ≠ k) : find (assign m k v) k' = find m k' := by
  induction m with
  | nil => simp [assign, find, Ne.symm h]
  | cons p rest ih =>
    obtain ⟨k0, v0⟩ := p
    by_cases h0 : k0 = k
    · subst h0
      simp [assign, find, Ne.symm h]
    · by_cases h1 : k0 = k'
      · subst h1
        simp [assign, find, h]
      · simp [assign, find, h0, h1, ih]

theorem find_erase_self {β : Type} (m : List (String × β)) (k : String) :
    find (erase m k) k = none := by
  induction m with
  | nil => simp [erase, find]
  | cons p rest ih =>
    obtain ⟨k0, v0⟩ := p
    by_cases h0 : k0 = k
    · simpa [erase, List.filter_cons, h0] using ih
    · simpa [erase, List.filter_cons, h0, find] using ih

theorem find_erase_ne {β : Type} (m : List (String × β)) (k k' : String) (h : k' ≠ k) :
    find (erase m k) k' = find m k' := by
  induction m with
  | nil => simp [erase, find]
  | cons p rest ih =>
    obtain ⟨k0, v0⟩ := p
    by_cases h0 : k0 = k
    · subst h0
      simpa [erase, List.filter_cons, find, Ne.symm h] using ih
    · by_cases h1 : k0 = k'
      · subst h1
        simp [erase, List.filter_cons, h, find]
      · simpa [erase, List.filter_cons, h0, find, h1] using ih

theorem length_assign_of_find {β : Type} (m : List (String × β)) (k : String) (v v0 : β)
    (h : find m k = some v0) : (assign m k v).length = m.length := by
  induction m with
  | nil => simp [find] at h
  | cons p rest ih =>
    obtain ⟨k0, w⟩ := p
    by_cases h0 : k0 = k
    · simp [assign, h0]
    · simp only [find, h0, if_false] at h
      simp [assign, h0, ih h]

end UMap

/-! ## DataLayer: `set` and `get` -/

namespace DataLayer

theorem isExpired_eq_false_iff (e : DataEntry) (now : Nat) :
    isExpired e now = false ↔ (e.expiryTime = 0 ∨ now < e.expiryTime) := by
  unfold isExpired
  by_cases h0 : e.expiryTime = 0
  · simp [h0]
  · have : 0 < e.expiryTime := Nat.pos_of_ne_zero h0
    simp [h0, this]

theorem set_eq (s : DataLayer) (k : String) (v : Bytes) (ttlMs now : Nat)
    (hinit : s.initialized_ = true) (hk : k ≠ "") :
    s.set k v ttlMs now =
      (true, { s with data_ := UMap.assign s.data_ k (DataEntry.mk v
          (if ttlMs > 0 then add32 now ttlMs else 0) now) }) := by
  simp [set, hinit, isEmpty_eq_false_of_ne k hk]

/-- C9. On an initialised store and for a non-empty key, `set` returns true
and afterwards the key is bound to exactly the value given, with creation
time `now` and with expiry 0 when `ttlMs = 0` and the 32-bit sum
`now + ttlMs` otherwise, whatever was bound before; the binding of every
other key and the rest of the object are as before. -/
theorem C9_set_upsert (s : DataLayer) (k : String) (v : Bytes) (ttlMs now : Nat)
    (hinit : s.initialized_ = true) (hk : k ≠ "") :
    (s.set k v ttlMs now).1 = true ∧
    UMap.find (s.set k v ttlMs now).2.data_ k =
      some { value := v, createdTime := now,
             expiryTime := if ttlMs = 0 then 0 else (now + ttlMs) % 2 ^ 32 } ∧
    (∀ k', k' ≠ k → UMap.find (s.set k v ttlMs now).2.data_ k' = UMap.find s.data_ k') ∧
    (s.set k v ttlMs now).2.initialized_ = true ∧
    (s.set k v ttlMs now).2.cleanupIntervalMs_ = s.cleanupIntervalMs_ := by
  rw [set_eq s k v ttlMs now hinit hk]
  refine ⟨rfl, ?_, ?_, hinit, rfl⟩
  · simp only [UMap.find_assign_self]
    by_cases h : ttlMs = 0
    · simp [h]
    · have : 0 < ttlMs := Nat.pos_of_ne_zero h
      simp [h, this, add32, U32]
  · intro k' hk'
    exact UMap.find_assign_ne _ _ _ _ hk'

/-- Witness of C9: `set` overwrites a persistent binding of `"a"` by one
that expires. -/
theorem C9_set_upsert_witness :
    ((fresh.set "a" [1] 0 5).2.set "a" [2, 3] 50 7).1 = true ∧
    UMap.find ((fresh.set "a" [1] 0 5).2.set "a" [2, 3] 50 7).2.data_ "a" =
      some { value := [2, 3], createdTime := 7, expiryTime := 57 } :=
  ⟨(C9_set_upsert (fresh.set "a" [1] 0 5).2 "a" [2, 3] 50 7 (by decide) (by decide)).1,
   (C9_set_upsert (fresh.set "a" [1] 0 5).2 "a" [2, 3] 50 7 (by decide) (by decide)).2.1⟩

/-- C10. On an initialised store and for a non-empty key, `get` returns
true exactly when the key is bound to an entry that is not expired at `now`
(expiry 0, or `now` below the expiry), and then hands out the stored value
and leaves the store alone; it returns false, with the out-parameter
untouched, when the key is unbound or its entry is expired, and in the
expired case the key is unbound afterwards. -/
theorem C10_get_live_iff (s : DataLayer) (k : String) (out : Bytes) (now : Nat)
    (hinit : s.initialized_ = true) (hk : k ≠ "") :
    ((s.get k out now).1 = true ↔
      ∃ e, UMap.find s.data_ k = some e ∧ (e.expiryTime = 0 ∨ now < e.expiryTime)) ∧
    (∀ e, UMap.find s.data_ k = some e → (e.expiryTime = 0 ∨ now < e.expiryTime) →
      s.get k out now = (true, e.value, s)) ∧
    (UMap.find s.data_ k = none → s.get k out now = (false, out, s)) ∧
    (∀ e, UMap.find s.data_ k = some e → ¬ (e.expiryTime = 0 ∨ now < e.expiryTime) →
      (s.get k out now).1 = false ∧ (s.get k out now).2.1 = out ∧
      UMap.find (s.get k out now).2.2.data_ k = none) := by
  have hke := isEmpty_eq_false_of_ne k hk
  refine ⟨?_, ?_, ?_, ?_⟩
  · cases hf : UMap.find s.data_ k with
    | none => simp [get, hinit, hke, hf]
    | some e =>
      cases hx : isExpired e now with
      | true =>
        have hn : ¬ (e.expiryTime = 0 ∨ now < e.expiryTime) := by
          rw [← isExpired_eq_false_iff, hx]; simp
        simp only [get, hinit, hke, hf, hx]
        simpa using hn
      | false =>
        have hl := (isExpired_eq_false_iff e now).1 hx
        simp only [get, hinit, hke, hf, hx]
        simpa using hl
  · intro e hf hl
    have hx := (isExpired_eq_false_iff e now).2 hl
    simp [get, hinit, hke, hf, hx]
  · intro hf
    simp [get, hinit, hke, hf]
  · intro e hf hn
    have hx : isExpired e now = true := by
      cases hx : isExpired e now with
      | true => rfl
      | false => exact absurd ((isExpired_eq_false_iff e now).1 hx) hn
    simp [get, hinit, hke, hf, hx, UMap.find_erase_self]

/-- Witness of C10: a key set with a TTL of 50 ms at time 0 is read back at
time 49. -/
theorem C10_get_live_iff_witness :
    (fresh.set "b" [9] 50 0).2.get "b" [] 49 = (true, [9], (fresh.set "b" [9] 50 0).2) :=
  (C10_get_live_iff (fresh.set "b" [9] 50 0).2 "b" [] 49 (by decide) (by decide)).2.1
    { value := [9], expiryTime := 50, createdTime := 0 } (by decide) (by decide)

/-! ## DataLayer: `ttl` and `expire` -/

theorem toInt32_sub32_of_lt (now t : Nat) (ht : t < 2 ^ 31) (hsum : now + t < 2 ^ 32) :
    toInt32 (sub32 (now + t) now) = (t : Int) := by
  have hnow : now < 2 ^ 32 := by omega
  have h1 : sub32 (now + t) now = t := by
    unfold sub32 U32
    rw [Nat.mod_eq_of_lt hsum, Nat.mod_eq_of_lt hnow]
    have : now + t + 2 ^ 32 - now = t + 2 ^ 32 := by omega
    rw [this, Nat.add_mod_right]
    exact Nat.mod_eq_of_lt (by omega)
  rw [h1]
  unfold toInt32 U32
  have h2 : t % 2 ^ 32 = t := Nat.mod_eq_of_lt (by omega)
  rw [h2, if_pos ht]

/-- C2. A key set at clock 0 with a TTL of 3000000000 ms is live at clock 0
(`get` returns its value) and `ttl` returns -1294967296 for it; with a TTL
of 4294967295 ms `ttl` returns -1, and with 4294967294 ms it returns -2,
the two values reserved for "no expiry" and "absent". -/
theorem C2_ttl_negative_for_live_key :
    ((fresh.set "k" [1] 3000000000 0).2.get "k" [] 0).1 = true ∧
    ((fresh.set "k" [1] 3000000000 0).2.ttl "k" 0).1 = -1294967296 ∧
    ((fresh.set "k" [1] 4294967295 0).2.ttl "k" 0).1 = -1 ∧
    ((fresh.set "k" [1] 4294967294 0).2.get "k" [] 0).1 = true ∧
    ((fresh.set "k" [1] 4294967294 0).2.ttl "k" 0).1 = -2 := by
  decide

/-- C3, as stated, fails. A persistent key (`ttl` is -1) given `expire`
with 0 ms at clock 5 is reported absent by `ttl` at clock 5; given `expire`
with 2147483648 ms at clock 0 its `ttl` is negative; given `expire` with
2 ms at clock 4294967295 the expiry wraps to 1 and `ttl` reports the key
absent. In each case `expire` returned true and the result is outside
`[0, t]`. -/
theorem C3_expire_ttl_counterexample :
    ((fresh.set "k" [1] 0 5).2.ttl "k" 5).1 = -1 ∧
    ((fresh.set "k" [1] 0 5).2.expire "k" 0 5).1 = true ∧
    (((fresh.set "k" [1] 0 5).2.expire "k" 0 5).2.ttl "k" 5).1 = -2 ∧
    ((fresh.set "k" [1] 0 0).2.expire "k" 2147483648 0).1 = true ∧
    (((fresh.set "k" [1] 0 0).2.expire "k" 2147483648 0).2.ttl "k" 0).1 = -2147483648 ∧
    ((fresh.set "k" [1] 0 4294967295).2.expire "k" 2 4294967295).1 = true ∧
    (((fresh.set "k" [1] 0 4294967295).2.expire "k" 2 4294967295).2.ttl "k" 4294967295).1
      = -2 := by
  decide

/-- C3, amended. When `ttl` reports -1 for a key at clock `now`, and
`0 < t < 2 ^ 31` with `now + t` below `2 ^ 32`, then `expire` with `t`
returns true and `ttl` at the same clock value returns exactly `t`, which
lies in `[0, t]`. -/
theorem C3_expire_then_ttl (s : DataLayer) (k : String) (t now : Nat)
    (hpersistent : (s.ttl k now).1 = -1) (hpos : 0 < t) (ht : t < 2 ^ 31)
    (hsum : now + t < 2 ^ 32) :
    (s.expire k t now).1 = true ∧
    ((s.expire k t now).2.ttl k now).1 = (t : Int) ∧
    0 ≤ ((s.expire k t now).2.ttl k now).1 ∧
    ((s.expire k t now).2.ttl k now).1 ≤ (t : Int) := by
  have hguard : (k.isEmpty || !s.initialized_) = false := by
    cases hg : (k.isEmpty || !s.initialized_) with
    | false => rfl
    | true => simp [ttl, hg] at hpersistent
  obtain ⟨e, hf⟩ : ∃ e, UMap.find s.data_ k = some e := by
    cases hf : UMap.find s.data_ k with
    | some e => exact ⟨e, rfl⟩
    | none => simp [ttl, hguard, hf] at hpersistent
  have hmod : add32 now t = now + t := by
    unfold add32 U32
    exact Nat.mod_eq_of_lt hsum
  have hexp : isExpired { e with expiryTime := now + t } now = false := by
    rw [isExpired_eq_false_iff]
    right
    show now < now + t
    omega
  have hne : ¬ (now + t = 0) := by omega
  have hke : k.isEmpty = false := by
    cases hc : k.isEmpty with
    | false => rfl
    | true => simp [hc] at hguard
  have hinit : s.initialized_ = true := by
    cases hc : s.initialized_ with
    | true => rfl
    | false => simp [hc] at hguard
  have hval : ((s.expire k t now).2.ttl k now).1 = (t : Int) := by
    simp [expire, ttl, hke, hinit, hf, hmod, UMap.find_assign_self, hexp, hne,
      toInt32_sub32_of_lt now t ht hsum]
  refine ⟨?_, hval, ?_, ?_⟩
  · simp [expire, hke, hinit, hf]
  · rw [hval]; exact Int.natCast_nonneg t
  · rw [hval]

/-- Witness of C3, amended: a persistent key given 5000 ms at clock 100. -/
theorem C3_expire_then_ttl_witness :
    ((fresh.set "greeting" [72] 0 100).2.expire "greeting" 5000 100).1 = true ∧
    (((fresh.set "greeting" [72] 0 100).2.expire "greeting" 5000 100).2.ttl
      "greeting" 100).1 = 5000 :=
  ⟨(C3_expire_then_ttl (fresh.set "greeting" [72] 0 100).2 "greeting" 5000 100
      (by decide) (by decide) (by decide) (by decide)).1,
   (C3_expire_then_ttl (fresh.set "greeting" [72] 0 100).2 "greeting" 5000 100
      (by decide) (by decide) (by decide) (by decide)).2.1⟩

end DataLayer

/-! ## DataLayer: an entry between `set` and `get` -/

namespace UMap

theorem find_eq_none_of_not_mem {β : Type} (m : List (String × β)) (k : String)
    (h : k ∉ m.map Prod.fst) : find m k = none := by
  induction m with
  | nil => rfl
  | cons p rest ih =>
    obtain ⟨k0, v0⟩ := p
    simp only [List.map_cons, List.mem_cons, not_or] at h
    have h0 : ¬ k0 = k := fun hh => h.1 hh.symm
    simp [find, h0, ih h.2]

theorem find_filter_of_nodup {β : Type} (m : List (String × β)) (q : β → Bool) (k : String)
    (hnd : (m.map Prod.fst).Nodup) :
    find (m.filter (fun p => q p.2)) k = (find m k).filter q := by
  induction m with
  | nil => simp [find, Option.filter]
  | cons p rest ih =>
    obtain ⟨k0, v0⟩ := p
    simp only [List.map_cons, List.nodup_cons] at hnd
    have ih1 := ih hnd.2
    by_cases h0 : k0 = k
    · subst h0
      have hrest : find rest k0 = none := find_eq_none_of_not_mem rest k0 hnd.1
      cases hq : q v0 with
      | true => simp [List.filter_cons, hq, find, Option.filter]
      | false =>
        simp [List.filter_cons, hq, find, Option.filter, ih1, hrest]
    · cases hq : q v0 with
      | true => simpa [List.filter_cons, hq, find, h0] using ih1
      | false => simpa [List.filter_cons, hq, find, h0] using ih1

theorem keys_assign {β : Type} (m : List (String × β)) (k : String) (v : β) :
    (assign m k v).map Prod.fst =
      if k ∈ m.map Prod.fst then m.map Prod.fst else m.map Prod.fst ++ [k] := by
  induction m with
  | nil => simp [assign]
  | cons p rest ih =>
    obtain ⟨k0, v0⟩ := p
    by_cases h0 : k0 = k
    · subst h0
      simp [assign]
    · have h1 : ¬ k = k0 := fun hh => h0 hh.symm
      simp only [assign, h0, if_false, List.map_cons, ih, List.mem_cons, h1, false_or]
      split <;> simp

theorem nodup_assign {β : Type} (m : List (String × β)) (k : String) (v : β)
    (hnd : (m.map Prod.fst).Nodup) : ((assign m k v).map Prod.fst).Nodup := by
  rw [keys_assign]
  split
  · exact hnd
  · rename_i hmem
    rw [List.nodup_append]
    refine ⟨hnd, List.nodup_singleton k, ?_⟩
    intro a ha hb
    simp only [List.mem_singleton] at hb
    subst hb
    exact hmem ha

theorem nodup_filter {β : Type} (m : List (String × β)) (q : String × β → Bool)
    (hnd : (m.map Prod.fst).Nodup) : ((m.filter q).map Prod.fst).Nodup :=
  List.Nodup.sublist (List.Sublist.map Prod.fst (List.filter_sublist m)) hnd

end UMap

namespace DataLayer

theorem keysScan_snd (now : Nat) (m : List (String × DataEntry)) :
    (keysScan now m).2 = m.filter (fun p => !isExpired p.2 now) := by
  induction m with
  | nil => rfl
  | cons p rest ih =>
    obtain ⟨k0, e0⟩ := p
    cases hx : isExpired e0 now with
    | true => simp [keysScan, hx, ih, List.filter_cons]
    | false => simp [keysScan, hx, ih, List.filter_cons]

/-- What a sweep-like filter leaves of a binding that is not expired. -/
theorem find_sweep (m : List (String × DataEntry)) (k : String) (now : Nat)
    (hnd : (m.map Prod.fst).Nodup) :
    UMap.find (m.filter (fun p => !isExpired p.2 now)) k =
      (UMap.find m k).filter (fun e => !isExpired e now) :=
  UMap.find_filter_of_nodup m (fun e => !isExpired e now) k hnd

/-- Frame property of the operations: one that is not a `set`, `del` or
`expire` of `k` keeps the store initialised and well formed, and either
leaves the binding of `k` as it is or removes a binding that was expired at
the clock value it read. -/
theorem apply_frame (s : DataLayer) (op : Op) (now : Nat) (k : String)
    (hinit : s.initialized_ = true) (hwf : s.WF) (hw : op.writes k = false) :
    (op.apply s now).initialized_ = true ∧ (op.apply s now).WF ∧
    (UMap.find (op.apply s now).data_ k = UMap.find s.data_ k ∨
      (UMap.find (op.apply s now).data_ k = none ∧
        ∃ e, UMap.find s.data_ k = some e ∧ isExpired e now = true)) := by
  unfold WF at *
  have hread : ∀ key : String, (key.isEmpty || !s.initialized_) = false →
      ∀ e, UMap.find s.data_ key = some e → isExpired e now = true →
      ((UMap.erase s.data_ key).map Prod.fst).Nodup ∧
      (UMap.find (UMap.erase s.data_ key) k = UMap.find s.data_ k ∨
        (UMap.find (UMap.erase s.data_ key) k = none ∧
          ∃ e, UMap.find s.data_ k = some e ∧ isExpired e now = true)) := by
    intro key _ e hf hx
    refine ⟨UMap.nodup_filter _ _ hwf, ?_⟩
    by_cases hkk : k = key
    · subst hkk
      exact Or.inr ⟨UMap.find_erase_self _ _, e, hf, hx⟩
    · exact Or.inl (UMap.find_erase_ne _ _ _ hkk)
  have hsweep : ((s.data_.filter (fun p => !isExpired p.2 now)).map Prod.fst).Nodup ∧
      (UMap.find (s.data_.filter (fun p => !isExpired p.2 now)) k = UMap.find s.data_ k ∨
        (UMap.find (s.data_.filter (fun p => !isExpired p.2 now)) k = none ∧
          ∃ e, UMap.find s.data_ k = some e ∧ isExpired e now = true)) := by
    refine ⟨UMap.nodup_filter _ _ hwf, ?_⟩
    rw [find_sweep _ _ _ hwf]
    cases hf : UMap.find s.data_ k with
    | none => left; rfl
    | some e =>
      cases hx : isExpired e now with
      | true => right; exact ⟨by simp [Option.filter, hx], e, rfl, hx⟩
      | false => left; simp [Option.filter, hx]
  cases op with
  | set key value ttlMs =>
    have hne : k ≠ key := by
      intro hh
      simp [Op.writes, hh] at hw
    cases hg : (key.isEmpty || !s.initialized_) with
    | true => simp only [Op.apply, set, hg]; exact ⟨hinit, hwf, Or.inl rfl⟩
    | false =>
      simp only [Op.apply, set, hg]
      exact ⟨hinit, UMap.nodup_assign _ _ _ hwf, Or.inl (UMap.find_assign_ne _ _ _ _ hne)⟩
  | get key value =>
    cases hg : (key.isEmpty || !s.initialized_) with
    | true => simp only [Op.apply, get, hg]; exact ⟨hinit, hwf, Or.inl rfl⟩
    | false =>
      cases hf : UMap.find s.data_ key with
      | none => simp only [Op.apply, get, hg, hf]; exact ⟨hinit, hwf, Or.inl rfl⟩
      | some e =>
        cases hx : isExpired e now with
        | false => simp only [Op.apply, get, hg, hf, hx]; exact ⟨hinit, hwf, Or.inl rfl⟩
        | true =>
          simp only [Op.apply, get, hg, hf, hx]
          exact ⟨hinit, hread key hg e hf hx⟩
  | del key =>
    have hne : k ≠ key := by
      intro hh
      simp [Op.writes, hh] at hw
    cases hg : (key.isEmpty || !s.initialized_) with
    | true => simp only [Op.apply, del, hg]; exact ⟨hinit, hwf, Or.inl rfl⟩
    | false =>
      cases hf : UMap.find s.data_ key with
      | none => simp only [Op.apply, del, hg, hf]; exact ⟨hinit, hwf, Or.inl rfl⟩
      | some e =>
        simp only [Op.apply, del, hg, hf]
        exact ⟨hinit, UMap.nodup_filter _ _ hwf, Or.inl (UMap.find_erase_ne _ _ _ hne)⟩
  | «exists» key =>
    cases hg : (key.isEmpty || !s.initialized_) with
    | true => simp only [Op.apply, DataLayer.«exists», hg]; exact ⟨hinit, hwf, Or.inl rfl⟩
    | false =>
      cases hf : UMap.find s.data_ key with
      | none => simp only [Op.apply, DataLayer.«exists», hg, hf]; exact ⟨hinit, hwf, Or.inl rfl⟩
      | some e =>
        cases hx : isExpired e now with
        | false => simp only [Op.apply, DataLayer.«exists», hg, hf, hx]; exact ⟨hinit, hwf, Or.inl rfl⟩
        | true =>
          simp only [Op.apply, DataLayer.«exists», hg, hf, hx]
          exact ⟨hinit, hread key hg e hf hx⟩
  | keys =>
    simp only [Op.apply, keys, hinit, keysScan_snd]
    exact ⟨rfl, hsweep⟩
  | expire key ttlMs =>
    have hne : k ≠ key := by
      intro hh
      simp [Op.writes, hh] at hw
    cases hg : (key.isEmpty || !s.initialized_) with
    | true => simp only [Op.apply, expire, hg]; exact ⟨hinit, hwf, Or.inl rfl⟩
    | false =>
      cases hf : UMap.find s.data_ key with
      | none => simp only [Op.apply, expire, hg, hf]; exact ⟨hinit, hwf, Or.inl rfl⟩
      | some e =>
        simp only [Op.apply, expire, hg, hf]
        exact ⟨hinit, UMap.nodup_assign _ _ _ hwf, Or.inl (UMap.find_assign_ne _ _ _ _ hne)⟩
  | ttl key =>
    cases hg : (key.isEmpty || !s.initialized_) with
    | true => simp only [Op.apply, ttl, hg]; exact ⟨hinit, hwf, Or.inl rfl⟩
    | false =>
      cases hf : UMap.find s.data_ key with
      | none => simp only [Op.apply, ttl, hg, hf]; exact ⟨hinit, hwf, Or.inl rfl⟩
      | some e =>
        cases hx : isExpired e now with
        | true =>
          simp only [Op.apply, ttl, hg, hf, hx]
          exact ⟨hinit, hread key hg e hf hx⟩
        | false =>
          by_cases h0 : e.expiryTime = 0
          · simp only [Op.apply, ttl, hg, hf, hx, h0]; exact ⟨hinit, hwf, Or.inl rfl⟩
          · simp only [Op.apply, ttl, hg, hf, hx, h0]; exact ⟨hinit, hwf, Or.inl rfl⟩
  | size => exact ⟨hinit, hwf, Or.inl rfl⟩
  | performCleanup =>
    simp only [Op.apply, performCleanup, hinit]
    exact ⟨rfl, hsweep⟩

theorem isExpired_mono (e : DataEntry) (now bound : Nat) (hle : now ≤ bound)
    (h : isExpired e bound = false) : isExpired e now = false := by
  rw [isExpired_eq_false_iff] at h ⊢
  rcases h with h | h
  · exact Or.inl h
  · exact Or.inr (by omega)

/-- A sequence of operations none of which is a `set`, `del` or `expire` of
`k` can only leave the binding of `k` as it is or remove it, and it leaves
it when the bound entry is not expired at a clock value that no operation
of the sequence exceeds. -/
theorem run_frame (trace : List (Op × Nat)) (s : DataLayer) (k : String) (bound : Nat)
    (hinit : s.initialized_ = true) (hwf : s.WF)
    (hquiet : ∀ p ∈ trace, p.1.writes k = false ∧ p.2 ≤ bound) :
    (run s trace).initialized_ = true ∧ (run s trace).WF ∧
    (UMap.find (run s trace).data_ k = UMap.find s.data_ k ∨
      UMap.find (run s trace).data_ k = none) ∧
    ((∀ e, UMap.find s.data_ k = some e → isExpired e bound = false) →
      UMap.find (run s trace).data_ k = UMap.find s.data_ k) := by
  induction trace generalizing s with
  | nil => exact ⟨hinit, hwf, Or.inl rfl, fun _ => rfl⟩
  | cons p rest ih =>
    obtain ⟨op, now⟩ := p
    have hp := hquiet (op, now) (List.mem_cons_self _ _)
    have hrest : ∀ q ∈ rest, q.1.writes k = false ∧ q.2 ≤ bound :=
      fun q hq => hquiet q (List.mem_cons_of_mem _ hq)
    obtain ⟨hi1, hw1, hf1⟩ := apply_frame s op now k hinit hwf hp.1
    obtain ⟨hi2, hw2, hf2, hl2⟩ := ih (op.apply s now) hi1 hw1 hrest
    refine ⟨hi2, hw2, ?_, ?_⟩
    · rcases hf2 with h | h
      · rcases hf1 with h1 | h1
        · exact Or.inl (by rw [run, h, h1])
        · exact Or.inr (by rw [run, h, h1.1])
      · exact Or.inr (by rw [run, h])
    · intro hlive
      have hkeep : UMap.find (op.apply s now).data_ k = UMap.find s.data_ k := by
        rcases hf1 with h1 | ⟨_, e, he, hx⟩
        · exact h1
        · have := isExpired_mono e now bound hp.2 (hlive e he)
          rw [this] at hx
          exact absurd hx (by simp)
      rw [run, hl2 (fun e he => hlive e (by rw [← hkeep]; exact he)), hkeep]

/-- C1, as stated, fails on the 32-bit clock. A key set with a TTL of 20 ms
at clock 4294967286 gets the expiry 10, and `get` 5 ms later, at clock
4294967291, returns false. A key set with a TTL of 6 ms at clock 4294967290
gets the expiry 0, and `get` 6 ms later, at clock 0, returns true. -/
theorem C1_get_ttl_counterexample :
    (4294967286 + 5) % 2 ^ 32 = 4294967291 ∧
    ((fresh.set "k" [1] 20 4294967286).2.get "k" [] 4294967291).1 = false ∧
    (4294967290 + 6) % 2 ^ 32 = 0 ∧
    ((fresh.set "k" [1] 6 4294967290).2.get "k" [] 0).1 = true := by
  decide

/-- C1, amended. On an initialised, well-formed store and for a non-empty
key `k` and a TTL `t > 0`, let `set` run at clock `T` and `get` at clock
`T + d`, with `T + t` and `T + d` below `2 ^ 32` (the clock does not wrap),
and in between any
sequence of store operations and sweeps, none a `set`, `del` or `expire` of
`k`, each reading a clock value of at most `T + d`. Then `get` returns true
with the value set when `d < t`, and returns false and leaves its
out-parameter alone when `t ≤ d`. -/
theorem C1_get_within_ttl (s : DataLayer) (k : String) (v out : Bytes) (t T d : Nat)
    (trace : List (Op × Nat))
    (hinit : s.initialized_ = true) (hwf : s.WF) (hk : k ≠ "") (ht : 0 < t)
    (hT : T + t < 2 ^ 32) (hd : T + d < 2 ^ 32)
    (hquiet : ∀ p ∈ trace, p.1.writes k = false ∧ p.2 ≤ T + d) :
    (d < t → (run (s.set k v t T).2 trace).get k out ((T + d) % 2 ^ 32) =
      (true, v, run (s.set k v t T).2 trace)) ∧
    (t ≤ d → ((run (s.set k v t T).2 trace).get k out ((T + d) % 2 ^ 32)).1 = false ∧
      ((run (s.set k v t T).2 trace).get k out ((T + d) % 2 ^ 32)).2.1 = out) := by
  rw [Nat.mod_eq_of_lt hd]
  have hke := isEmpty_eq_false_of_ne k hk
  have hmod : add32 T t = T + t := by
    unfold add32 U32
    exact Nat.mod_eq_of_lt hT
  have hfacts : (s.set k v t T).2.initialized_ = true ∧ (s.set k v t T).2.WF ∧
      UMap.find (s.set k v t T).2.data_ k = some (DataEntry.mk v (T + t) T) := by
    rw [set_eq s k v t T hinit hk, if_pos ht, hmod]
    exact ⟨hinit, UMap.nodup_assign _ _ _ hwf, UMap.find_assign_self _ _ _⟩
  generalize (s.set k v t T).2 = s1 at hfacts ⊢
  obtain ⟨hinit1, hwf1, hfind1⟩ := hfacts
  obtain ⟨hi2, _, hf2, hl2⟩ := run_frame trace s1 k (T + d) hinit1 hwf1 hquiet
  constructor
  · intro hlt
    have hx : isExpired (DataEntry.mk v (T + t) T) (T + d) = false := by
      rw [isExpired_eq_false_iff]
      right
      show T + d < T + t
      omega
    have hlive : UMap.find (run s1 trace).data_ k = some (DataEntry.mk v (T + t) T) := by
      rw [hl2, hfind1]
      intro e he
      rw [hfind1] at he
      cases he
      exact hx
    simp [get, hke, hi2, hlive, hx]
  · intro hle
    rcases hf2 with h | h
    · rw [hfind1] at h
      have hx : isExpired (DataEntry.mk v (T + t) T) (T + d) = true := by
        unfold isExpired
        have h1 : 0 < T + t := by omega
        have h2 : T + t ≤ T + d := by omega
        simp [h1, h2]
      simp [get, hke, hi2, h, hx]
    · simp [get, hke, hi2, h]

/-- Witness of C1, amended: `"b"` set with 50 ms at clock 0, a sweep at
clock 10 and a `keys` scan at clock 20, then `get` at clock 60. -/
theorem C1_get_within_ttl_witness :
    ((run (fresh.set "b" [9] 50 0).2 [(Op.performCleanup, 10), (Op.keys, 20)]).get
      "b" [] ((0 + 60) % 2 ^ 32)).1 = false :=
  ((C1_get_within_ttl fresh "b" [9] [] 50 0 60 [(Op.performCleanup, 10), (Op.keys, 20)]
    (by decide) (by decide) (by decide) (by decide) (by decide) (by decide)
    (by decide)).2 (by decide)).1

end DataLayer

/-! ## NetworkLayer: `publish` and delivery -/

namespace NetworkLayer

/-- When no callback target throws an exception outside the family of
`std::exception`, the loop of a delivery calls every entry of the copied
bucket once, in order, and no exception leaves it. -/
theorem deliverLoop_complete (handlers : Handlers) (mem : Memory) (topic : String)
    (data : Option Nat) (len : Nat)
    (hstd : ∀ i nl, (handlers i nl).2 ≠ CallOutcome.threwOther)
    (snapshot : List (String × MessageCallback)) (nl : NetworkLayer) :
    (deliverLoop handlers mem topic data len snapshot nl).calls =
      snapshot.map (callOf mem topic data len) ∧
    (deliverLoop handlers mem topic data len snapshot nl).escaped = false := by
  induction snapshot generalizing nl with
  | nil => exact ⟨rfl, rfl⟩
  | cons p rest ih =>
    obtain ⟨name, cb⟩ := p
    have hinv : (invoke handlers cb nl).2 ≠ CallOutcome.threwOther := by
      cases cb with
      | none => simp [invoke]
      | some i => exact hstd i nl
    rcases hr : invoke handlers cb nl with ⟨nl1, outcome⟩
    rw [hr] at hinv
    cases outcome with
    | threwOther => exact absurd rfl hinv
    | returned =>
      simp only [deliverLoop, hr, List.map_cons]
      exact ⟨by rw [(ih nl1).1]; rfl, (ih nl1).2⟩
    | threwStdException =>
      simp only [deliverLoop, hr, List.map_cons]
      exact ⟨by rw [(ih nl1).1]; rfl, (ih nl1).2⟩

/-- Whatever the callbacks do, the calls of a delivery are an initial part
of the calls for the entries of the copied bucket, taken in order. -/
theorem deliverLoop_prefix (handlers : Handlers) (mem : Memory) (topic : String)
    (data : Option Nat) (len : Nat)
    (snapshot : List (String × MessageCallback)) (nl : NetworkLayer) :
    (deliverLoop handlers mem topic data len snapshot nl).calls <+:
      snapshot.map (callOf mem topic data len) := by
  induction snapshot generalizing nl with
  | nil => exact List.prefix_refl _
  | cons p rest ih =>
    obtain ⟨name, cb⟩ := p
    rcases hr : invoke handlers cb nl with ⟨nl1, outcome⟩
    cases outcome with
    | threwOther =>
      simp only [deliverLoop, hr, List.map_cons]
      exact (List.prefix_cons_inj _).2 (List.nil_prefix)
    | returned =>
      simp only [deliverLoop, hr, List.map_cons]
      exact (List.prefix_cons_inj _).2 (ih nl1)
    | threwStdException =>
      simp only [deliverLoop, hr, List.map_cons]
      exact (List.prefix_cons_inj _).2 (ih nl1)

/-- C4. On an initialised broker, with a non-empty topic, a non-null
payload pointer and a non-zero length, `publish` returns true although the
delivery task could not be created, and no delivery task exists. -/
theorem C4_publish_true_without_task :
    fresh.initialized_ = true ∧
    fresh.publish "led/2/state" (some 100) 1 "" false = (true, none) := by
  decide

/-- C5. The delivery task created by `publish` holds the pointer the
caller passed, not a copy of the bytes: the caller's buffer at address 100
holds the byte 1 when `publish` is called, the caller writes 7 to it after
`publish` has returned, and the subscriber called by the delivery that runs
afterwards observes the byte 7. -/
theorem C5_delivery_reads_callers_buffer :
    readBytes (memWith 1) (some 100) 1 = [1] ∧
    (fresh.subscribe "led/2/state" "S1" (some 5)).2.publish "led/2/state" (some 100) 1 "" true
      = (true, some { topic := "led/2/state", data := some 100, len := 1 }) ∧
    ((fresh.subscribe "led/2/state" "S1" (some 5)).2.runDeliveryTask
        { topic := "led/2/state", data := some 100, len := 1 } (memWith 7)
        quietHandlers).calls.map Invocation.observed = [[7]] := by
  decide

/-- C8, as stated, fails. Topic `"y"` has the subscribers `"S1"` and
`"S2"`, and the callback of `"S1"` throws an exception that does not derive
from `std::exception`. When `"S1"` comes first in the copied bucket the
delivery calls `"S1"` only and the exception leaves `deliverMessage`; when
`"S2"` comes first both are called and the exception still leaves
`deliverMessage`. -/
theorem C8_fault_isolation_counterexample :
    ((((fresh.subscribe "y" "S1" (some 1)).2.subscribe "y" "S2" (some 2)).2.deliverMessage
        "y" (some 100) 1 (memWith 1) throwingHandlers).calls.map Invocation.subscriber
      = ["S1"]) ∧
    ((((fresh.subscribe "y" "S1" (some 1)).2.subscribe "y" "S2" (some 2)).2.deliverMessage
        "y" (some 100) 1 (memWith 1) throwingHandlers).escaped = true) ∧
    ((((fresh.subscribe "y" "S2" (some 2)).2.subscribe "y" "S1" (some 1)).2.deliverMessage
        "y" (some 100) 1 (memWith 1) throwingHandlers).escaped = true) := by
  decide

/-- C8, amended. When the exceptions that callbacks throw all derive from
`std::exception`, then for a broker and a topic with any bucket of
subscribers one delivery calls every subscriber of the copied bucket once,
in order, with the pointer, length and topic of the message, whichever of
the callbacks throw, and no exception leaves the delivery; and `publish`,
called on an initialised broker with valid arguments, has returned true. -/
theorem C8_fault_isolation (nl : NetworkLayer) (topic publisher : String) (data : Nat)
    (len : Nat) (created : Bool) (mem : Memory) (handlers : Handlers)
    (snapshot : List (String × MessageCallback))
    (hinit : nl.initialized_ = true) (htopic : topic ≠ "") (hlen : len ≠ 0)
    (hbucket : UMap.find nl.subscribers_ topic = some snapshot)
    (hstd : ∀ i nl1, (handlers i nl1).2 ≠ CallOutcome.threwOther) :
    (nl.publish topic (some data) len publisher created).1 = true ∧
    (nl.deliverMessage topic (some data) len mem handlers).calls =
      snapshot.map (callOf mem topic (some data) len) ∧
    (nl.deliverMessage topic (some data) len mem handlers).escaped = false := by
  have hte := isEmpty_eq_false_of_ne topic htopic
  refine ⟨?_, ?_, ?_⟩
  · simp [publish, hte, hlen, hinit]
  · simp only [deliverMessage, hbucket]
    exact (deliverLoop_complete handlers mem topic (some data) len hstd snapshot nl).1
  · simp only [deliverMessage, hbucket]
    exact (deliverLoop_complete handlers mem topic (some data) len hstd snapshot nl).2

/-- Witness of C8, amended: the callback of `"S1"` throws a
`std::runtime_error` and `"S2"` is still called. -/
theorem C8_fault_isolation_witness :
    (((fresh.subscribe "y" "S1" (some 1)).2.subscribe "y" "S2" (some 2)).2.deliverMessage
        "y" (some 100) 1 (memWith 1) stdThrowingHandlers).calls =
      [("S1", some 1), ("S2", some 2)].map (callOf (memWith 1) "y" (some 100) 1) :=
  (C8_fault_isolation ((fresh.subscribe "y" "S1" (some 1)).2.subscribe "y" "S2" (some 2)).2
    "y" "" 100 1 true (memWith 1) stdThrowingHandlers [("S1", some 1), ("S2", some 2)]
    (by decide) (by decide) (by decide) (by decide)
    (by intro i nl1; unfold stdThrowingHandlers; split <;> simp)).2.1

end NetworkLayer

/-! ## NetworkLayer: subscribing twice -/

theorem mem_of_find {β : Type} (m : List (String × β)) (k : String) (v : β)
    (h : UMap.find m k = some v) : (k, v) ∈ m := by
  induction m with
  | nil => simp [UMap.find] at h
  | cons p rest ih =>
    obtain ⟨k0, v0⟩ := p
    by_cases h0 : k0 = k
    · simp only [UMap.find, h0, if_true, Option.some.injEq] at h
      simp [h0, h]
    · simp only [UMap.find, h0, if_false] at h
      exact List.mem_cons_of_mem _ (ih h)

theorem find_of_mem_nodup {β : Type} (m : List (String × β)) (k : String) (v : β)
    (hnd : (m.map Prod.fst).Nodup) (h : (k, v) ∈ m) : UMap.find m k = some v := by
  induction m with
  | nil => simp at h
  | cons p rest ih =>
    obtain ⟨k0, v0⟩ := p
    simp only [List.map_cons, List.nodup_cons] at hnd
    rcases List.mem_cons.1 h with heq | hmem
    · cases heq
      simp [UMap.find]
    · have hk : k ∈ rest.map Prod.fst := List.mem_map.2 ⟨(k, v), hmem, rfl⟩
      have h0 : ¬ k0 = k := fun hh => hnd.1 (hh ▸ hk)
      simp only [UMap.find, h0, if_false]
      exact ih hnd.2 hmem

theorem assign_assign {β : Type} (m : List (String × β)) (k : String) (v w : β) :
    UMap.assign (UMap.assign m k v) k w = UMap.assign m k w := by
  induction m with
  | nil => simp [UMap.assign]
  | cons p rest ih =>
    obtain ⟨k0, v0⟩ := p
    by_cases h0 : k0 = k
    · simp [UMap.assign, h0]
    · simp [UMap.assign, h0, ih]

theorem filter_key_of_not_mem {β : Type} (m : List (String × β)) (k : String)
    (h : k ∉ m.map Prod.fst) : m.filter (fun p => decide (p.1 = k)) = [] := by
  rw [List.filter_eq_nil_iff]
  intro p hp
  have : p.1 ≠ k := fun hh => h (hh ▸ List.mem_map.2 ⟨p, hp, rfl⟩)
  simp [this]

theorem filter_assign_self {β : Type} (m : List (String × β)) (k : String) (v : β)
    (hnd : (m.map Prod.fst).Nodup) :
    (UMap.assign m k v).filter (fun p => decide (p.1 = k)) = [(k, v)] := by
  induction m with
  | nil => simp [UMap.assign]
  | cons p rest ih =>
    obtain ⟨k0, v0⟩ := p
    simp only [List.map_cons, List.nodup_cons] at hnd
    by_cases h0 : k0 = k
    · subst h0
      simp [UMap.assign, List.filter_cons, filter_key_of_not_mem rest k0 hnd.1]
    · simp [UMap.assign, h0, List.filter_cons, ih hnd.2]

theorem mem_assign {β : Type} (m : List (String × β)) (k : String) (v : β)
    (hnd : (m.map Prod.fst).Nodup) (p : String × β) (hp : p ∈ UMap.assign m k v) :
    p = (k, v) ∨ (p ∈ m ∧ p.1 ≠ k) := by
  induction m with
  | nil =>
    simp only [UMap.assign, List.mem_singleton] at hp
    exact Or.inl hp
  | cons q rest ih =>
    obtain ⟨k0, v0⟩ := q
    simp only [List.map_cons, List.nodup_cons] at hnd
    by_cases h0 : k0 = k
    · subst h0
      simp only [UMap.assign, if_true, List.mem_cons] at hp
      rcases hp with hp | hp
      · exact Or.inl hp
      · refine Or.inr ⟨List.mem_cons_of_mem _ hp, ?_⟩
        intro hh
        exact hnd.1 (hh ▸ List.mem_map.2 ⟨p, hp, rfl⟩)
    · simp only [UMap.assign, h0, if_false, List.mem_cons] at hp
      rcases hp with hp | hp
      · refine Or.inr ⟨by simp [hp], ?_⟩
        rw [hp]
        exact h0
      · rcases ih hnd.2 hp with h | h
        · exact Or.inl h
        · exact Or.inr ⟨List.mem_cons_of_mem _ h.1, h.2⟩

namespace NetworkLayer

theorem subscribe_spec (nl : NetworkLayer) (t n : String) (cb : Nat)
    (hinit : nl.initialized_ = true) (ht : t ≠ "") (hn : n ≠ "") :
    (nl.subscribe t n (some cb)).1 = true ∧
    (nl.subscribe t n (some cb)).2.initialized_ = true ∧
    UMap.find (nl.subscribe t n (some cb)).2.subscribers_ t =
      some (UMap.assign ((UMap.find nl.subscribers_ t).getD []) n (some cb)) := by
  have hte := isEmpty_eq_false_of_ne t ht
  have hne := isEmpty_eq_false_of_ne n hn
  simp [subscribe, hte, hne, hinit, UMap.find_assign_self]

theorem bucket_nodup (nl : NetworkLayer) (t : String) (hwf : nl.WF) :
    (((UMap.find nl.subscribers_ t).getD []).map Prod.fst).Nodup := by
  cases hf : UMap.find nl.subscribers_ t with
  | none => simp
  | some b => exact hwf.2 (t, b) (mem_of_find _ _ _ hf)

/-- C7. On an initialised, well-formed broker, for a non-empty topic `t`
and name `n` and callbacks `cb1` and `cb2`: both calls of `subscribe`
return true; the subscriber count of `t` after the second is the count
after the first, and the bucket of `t` binds `n` to `cb2`; a delivery on
`t` makes at most one call under the name `n`, which is to `cb2` with the
pointer, length and topic of the message, and calls `cb1` only where `cb1`
is `cb2` or is the callback that another name of `t` had subscribed before;
and when no callback throws an exception outside the family of
`std::exception`, the delivery runs to its end and makes exactly one call
under the name `n`. -/
theorem C7_resubscribe_replaces (nl : NetworkLayer) (t n : String) (cb1 cb2 : Nat)
    (data : Option Nat) (len : Nat) (mem : Memory) (handlers : Handlers)
    (hinit : nl.initialized_ = true) (hwf : nl.WF) (ht : t ≠ "") (hn : n ≠ "") :
    (nl.subscribe t n (some cb1)).1 = true ∧
    ((nl.subscribe t n (some cb1)).2.subscribe t n (some cb2)).1 = true ∧
    ((nl.subscribe t n (some cb1)).2.subscribe t n (some cb2)).2.getSubscriberCount t =
      (nl.subscribe t n (some cb1)).2.getSubscriberCount t ∧
    (∃ b, UMap.find ((nl.subscribe t n (some cb1)).2.subscribe t n
        (some cb2)).2.subscribers_ t = some b ∧
      b.filter (fun p => decide (p.1 = n)) = [(n, some cb2)]) ∧
    ((((nl.subscribe t n (some cb1)).2.subscribe t n (some cb2)).2.deliverMessage
        t data len mem handlers).calls.filter (fun c => decide (c.subscriber = n)) = [] ∨
     (((nl.subscribe t n (some cb1)).2.subscribe t n (some cb2)).2.deliverMessage
        t data len mem handlers).calls.filter (fun c => decide (c.subscriber = n)) =
      [callOf mem t data len (n, some cb2)]) ∧
    (∀ c ∈ (((nl.subscribe t n (some cb1)).2.subscribe t n (some cb2)).2.deliverMessage
        t data len mem handlers).calls, c.callback = some cb1 →
      cb1 = cb2 ∨ (c.subscriber ≠ n ∧
        UMap.find ((UMap.find nl.subscribers_ t).getD []) c.subscriber = some (some cb1))) ∧
    ((∀ i nl1, (handlers i nl1).2 ≠ CallOutcome.threwOther) →
      (((nl.subscribe t n (some cb1)).2.subscribe t n (some cb2)).2.deliverMessage
        t data len mem handlers).escaped = false ∧
      (((nl.subscribe t n (some cb1)).2.subscribe t n (some cb2)).2.deliverMessage
        t data len mem handlers).calls.filter (fun c => decide (c.subscriber = n)) =
      [callOf mem t data len (n, some cb2)]) := by
  have hb0 := bucket_nodup nl t hwf
  obtain ⟨hr1, hi1, hf1⟩ := subscribe_spec nl t n cb1 hinit ht hn
  generalize (UMap.find nl.subscribers_ t).getD [] = b0 at hb0 hf1 ⊢
  generalize (nl.subscribe t n (some cb1)).2 = nl1 at hi1 hf1 ⊢
  obtain ⟨hr2, hi2, hf2⟩ := subscribe_spec nl1 t n cb2 hi1 ht hn
  rw [hf1, Option.getD_some, assign_assign] at hf2
  generalize (nl1.subscribe t n (some cb2)).2 = nl2 at hi2 hf2 ⊢
  have hfun : ((fun c : Invocation => decide (c.subscriber = n)) ∘ callOf mem t data len) =
      (fun p : String × MessageCallback => decide (p.1 = n)) := by
    funext p
    simp [callOf]
  have hall : ((UMap.assign b0 n (some cb2)).map (callOf mem t data len)).filter
      (fun c => decide (c.subscriber = n)) = [callOf mem t data len (n, some cb2)] := by
    rw [List.filter_map, hfun, filter_assign_self b0 n (some cb2) hb0]
    rfl
  have hpre : (nl2.deliverMessage t data len mem handlers).calls <+:
      (UMap.assign b0 n (some cb2)).map (callOf mem t data len) := by
    simp only [deliverMessage, hf2]
    exact deliverLoop_prefix handlers mem t data len _ nl2
  refine ⟨hr1, hr2, ?_, ⟨_, hf2, filter_assign_self b0 n (some cb2) hb0⟩, ?_, ?_, ?_⟩
  · simp only [getSubscriberCount, hi1, hi2, hf1, hf2]
    have := UMap.length_assign_of_find (UMap.assign b0 n (some cb1)) n (some cb2) (some cb1)
      (UMap.find_assign_self _ _ _)
    rw [assign_assign] at this
    simpa using this
  · have hp := List.IsPrefix.filter (fun c : Invocation => decide (c.subscriber = n)) hpre
    rw [hall] at hp
    rcases List.prefix_cons_iff.1 hp with h | ⟨l, h1, h2⟩
    · exact Or.inl h
    · right
      rw [h1, List.prefix_nil.1 h2]
  · intro c hc hcb
    have hc1 := hpre.subset hc
    obtain ⟨p, hp, rfl⟩ := List.mem_map.1 hc1
    rcases mem_assign b0 n (some cb2) hb0 p hp with h | h
    · left
      rw [h] at hcb
      simp only [callOf, Option.some.injEq] at hcb
      exact hcb.symm
    · right
      refine ⟨h.2, ?_⟩
      have hp2 : p.2 = some cb1 := hcb
      have := find_of_mem_nodup b0 p.1 p.2 hb0 h.1
      rw [hp2] at this
      exact this
  · intro hstd
    have hcalls : (nl2.deliverMessage t data len mem handlers).calls =
        (UMap.assign b0 n (some cb2)).map (callOf mem t data len) := by
      simp only [deliverMessage, hf2]
      exact (deliverLoop_complete handlers mem t data len hstd _ nl2).1
    refine ⟨?_, by rw [hcalls, hall]⟩
    simp only [deliverMessage, hf2]
    exact (deliverLoop_complete handlers mem t data len hstd _ nl2).2

/-- Witness of C7: `"S1"` subscribes twice to `"x"`, next to `"S0"`. -/
theorem C7_resubscribe_replaces_witness :
    ((((fresh.subscribe "x" "S0" (some 9)).2.subscribe "x" "S1" (some 1)).2.subscribe
        "x" "S1" (some 2)).2.deliverMessage "x" (some 100) 1 (memWith 1)
        quietHandlers).calls.filter (fun c => decide (c.subscriber = "S1")) =
      [callOf (memWith 1) "x" (some 100) 1 ("S1", some 2)] :=
  ((C7_resubscribe_replaces (fresh.subscribe "x" "S0" (some 9)).2 "x" "S1" 1 2 (some 100) 1
    (memWith 1) quietHandlers (by decide) (by decide) (by decide)
    (by decide)).2.2.2.2.2.2 (by intro i nl1; simp [quietHandlers])).2

end NetworkLayer

/-! ## ApplicationInterface: the task runner -/

namespace ApplicationInterface

/-- C6, as stated, fails. A runner that was Running and then stopped
accepts `createTask` again: the call returns true and the runner is Running
with the new task. -/
theorem C6_stopped_not_terminal_counterexample :
    (new.createTask "LED" 4096 2 0 10 (some 1)).2.isTaskRunning = true ∧
    (new.createTask "LED" 4096 2 0 10 (some 1)).2.stopTask.isTaskRunning = false ∧
    ((new.createTask "LED" 4096 2 0 10 (some 1)).2.stopTask.createTask
      "LED" 4096 2 0 20 (some 2)).1 = true ∧
    ((new.createTask "LED" 4096 2 0 10 (some 1)).2.stopTask.createTask
      "LED" 4096 2 0 20 (some 2)).2.isTaskRunning = true := by
  decide

/-- C6, amended. After `stopTask` the runner has no task (`isTaskRunning`
is false) and is in the state of an unbound runner: a later `createTask`
returns true exactly when the creation of the task passes, and then the
runner is Running again, with the period given to that call. -/
theorem C6_stop_then_create (a : ApplicationInterface) (taskName : String)
    (stackSize priority coreId updateFrequencyMs : Nat) (created : Option Nat) :
    a.stopTask.isTaskRunning = false ∧
    (a.stopTask.createTask taskName stackSize priority coreId updateFrequencyMs created).1
      = created.isSome ∧
    (a.stopTask.createTask taskName stackSize priority coreId updateFrequencyMs
      created).2.isTaskRunning = created.isSome ∧
    (a.stopTask.createTask taskName stackSize priority coreId updateFrequencyMs
      created).2.updateFrequencyMs_ = updateFrequencyMs := by
  have hstop : a.stopTask.taskHandle_ = none := by
    unfold stopTask
    cases h : a.taskHandle_ with
    | none => simp [h]
    | some x => simp
  cases created with
  | none => simp [createTask, isTaskRunning, hstop]
  | some h => simp [createTask, isTaskRunning, hstop]

end ApplicationInterface

/-! ## DataLayer: `exists`, `keys`, `size` and the sweep -/

namespace DataLayer

/-- C11. For every store, key and clock value (and every out-parameter
given to `get`), `exists` returns the boolean that `get` returns and leaves
the store that `get` leaves, the eviction of an expired key included. -/
theorem C11_exists_as_get (s : DataLayer) (k : String) (out : Bytes) (now : Nat) :
    (s.«exists» k now).1 = (s.get k out now).1 ∧
    (s.«exists» k now).2 = (s.get k out now).2.2 := by
  unfold DataLayer.«exists» get
  cases hg : (k.isEmpty || !s.initialized_) with
  | true => simp
  | false =>
    cases hf : UMap.find s.data_ k with
    | none => simp
    | some e =>
      cases hx : isExpired e now with
      | true => simp [hx]
      | false => simp [hx]

theorem keysScan_fst (now : Nat) (m : List (String × DataEntry)) :
    (keysScan now m).1 = (m.filter (fun p => !isExpired p.2 now)).map Prod.fst := by
  induction m with
  | nil => rfl
  | cons p rest ih =>
    obtain ⟨k0, e0⟩ := p
    cases hx : isExpired e0 now with
    | true => simp [keysScan, hx, ih, List.filter_cons]
    | false => simp [keysScan, hx, ih, List.filter_cons]

/-- C12. On an initialised, well-formed store `keys` returns, each once,
exactly the keys bound to an entry that is not expired at `now` (expiry 0,
or `now` below the expiry), and the store afterwards holds exactly the
entries that are not expired, as they were: a key is bound afterwards to
what it was bound before if that entry is not expired, and is unbound
otherwise. -/
theorem C12_keys_live (s : DataLayer) (now : Nat)
    (hinit : s.initialized_ = true) (hwf : s.WF) :
    (s.keys now).1.Nodup ∧
    (∀ k, k ∈ (s.keys now).1 ↔
      ∃ e, UMap.find s.data_ k = some e ∧ (e.expiryTime = 0 ∨ now < e.expiryTime)) ∧
    (s.keys now).2.data_ = s.data_.filter (fun p => !isExpired p.2 now) ∧
    (∀ k e, UMap.find s.data_ k = some e → (e.expiryTime = 0 ∨ now < e.expiryTime) →
      UMap.find (s.keys now).2.data_ k = some e) ∧
    (∀ k e, UMap.find s.data_ k = some e → ¬ (e.expiryTime = 0 ∨ now < e.expiryTime) →
      UMap.find (s.keys now).2.data_ k = none) ∧
    (∀ k, UMap.find s.data_ k = none → UMap.find (s.keys now).2.data_ k = none) ∧
    (s.keys now).1 = (s.keys now).2.data_.map Prod.fst ∧
    (s.keys now).2.initialized_ = true := by
  unfold WF at hwf
  have hk1 : (s.keys now).1 = (s.data_.filter (fun p => !isExpired p.2 now)).map Prod.fst := by
    simp [keys, hinit, keysScan_fst]
  have hk2 : (s.keys now).2.data_ = s.data_.filter (fun p => !isExpired p.2 now) := by
    simp [keys, hinit, keysScan_snd]
  have hfind : ∀ k, UMap.find (s.keys now).2.data_ k =
      (UMap.find s.data_ k).filter (fun e => !isExpired e now) := by
    intro k
    rw [hk2]
    exact find_sweep _ _ _ hwf
  refine ⟨?_, ?_, hk2, ?_, ?_, ?_, by rw [hk1, hk2], by simp [keys, hinit]⟩
  · rw [hk1]
    exact UMap.nodup_filter _ _ hwf
  · intro k
    rw [hk1]
    constructor
    · intro hmem
      obtain ⟨p, hp, hpk⟩ := List.mem_map.1 hmem
      obtain ⟨hp1, hp2⟩ := List.mem_filter.1 hp
      obtain ⟨k0, e⟩ := p
      simp only at hpk
      subst hpk
      refine ⟨e, find_of_mem_nodup _ _ _ hwf hp1, ?_⟩
      rw [← isExpired_eq_false_iff]
      simpa using hp2
    · rintro ⟨e, hf, hl⟩
      have hx := (isExpired_eq_false_iff e now).2 hl
      exact List.mem_map.2 ⟨(k, e), List.mem_filter.2 ⟨mem_of_find _ _ _ hf, by simp [hx]⟩, rfl⟩
  · intro k e hf hl
    have hx := (isExpired_eq_false_iff e now).2 hl
    rw [hfind, hf]
    simp [Option.filter, hx]
  · intro k e hf hl
    have hx : isExpired e now = true := by
      cases hx : isExpired e now with
      | true => rfl
      | false => exact absurd ((isExpired_eq_false_iff e now).1 hx) hl
    rw [hfind, hf]
    simp [Option.filter, hx]
  · intro k hf
    rw [hfind, hf]
    rfl

/-- Witness of C12: of `"a"` (no expiry) and `"b"` (50 ms, set at clock 0)
the scan at clock 60 returns `"a"` only and leaves `"b"` unbound. -/
theorem C12_keys_live_witness :
    UMap.find (((fresh.set "a" [1, 2, 3] 0 0).2.set "b" [9] 50 0).2.keys 60).2.data_ "b"
      = none :=
  (C12_keys_live ((fresh.set "a" [1, 2, 3] 0 0).2.set "b" [9] 50 0).2 60
    (by decide) (by decide)).2.2.2.2.1 "b" { value := [9], expiryTime := 50, createdTime := 0 }
    (by decide) (by decide)

/-- C13. `size` is the raw number of entries: for every store and clock
value it is at least the number of keys that `keys` returns on that store,
and it leaves the store as it is; and on the store reached by setting
`"b"` with 50 ms at clock 0, at clock 60 and before any sweep or access,
`size` is 1 while `keys` returns nothing. -/
theorem C13_size_raw (s : DataLayer) (now : Nat) :
    (s.keys now).1.length ≤ s.size ∧
    Op.apply s now Op.size = s ∧
    (fresh.set "b" [9] 50 0).2.size = 1 ∧
    ((fresh.set "b" [9] 50 0).2.keys 60).1 = [] ∧
    ((fresh.set "b" [9] 50 0).2.keys 60).1.length < (fresh.set "b" [9] 50 0).2.size := by
  refine ⟨?_, rfl, by decide, by decide, by decide⟩
  cases hi : s.initialized_ with
  | false => simp [keys, size, hi]
  | true =>
    simp only [keys, size, hi, keysScan_fst]
    simpa using List.length_filter_le _ s.data_

/-- C14. On an initialised store one run of `performCleanup` at clock
`now` keeps exactly the entries whose expiry is 0 or above `now`, in place
and as they were, and removes the others; afterwards no entry of the store
is expired at `now`, and on a well-formed store a key is bound afterwards
exactly when it was bound to an entry that is kept, and to that entry. -/
theorem C14_sweep_exact (s : DataLayer) (now : Nat) (hinit : s.initialized_ = true) :
    (s.performCleanup now).data_ =
      s.data_.filter (fun p => !(decide (p.2.expiryTime ≠ 0) && decide (p.2.expiryTime ≤ now))) ∧
    (∀ p, p ∈ (s.performCleanup now).data_ ↔
      p ∈ s.data_ ∧ ¬ (p.2.expiryTime ≠ 0 ∧ p.2.expiryTime ≤ now)) ∧
    (∀ p ∈ (s.performCleanup now).data_, isExpired p.2 now = false) ∧
    (s.WF → ∀ k, UMap.find (s.performCleanup now).data_ k =
      (UMap.find s.data_ k).filter
        (fun e => !(decide (e.expiryTime ≠ 0) && decide (e.expiryTime ≤ now)))) ∧
    (s.performCleanup now).initialized_ = true ∧
    (s.performCleanup now).cleanupIntervalMs_ = s.cleanupIntervalMs_ := by
  have hfun : (fun p : String × DataEntry => !isExpired p.2 now) =
      (fun p => !(decide (p.2.expiryTime ≠ 0) && decide (p.2.expiryTime ≤ now))) := by
    funext p
    unfold isExpired
    by_cases h0 : p.2.expiryTime = 0
    · simp [h0]
    · have : 0 < p.2.expiryTime := Nat.pos_of_ne_zero h0
      simp [h0, this]
  have hdata : (s.performCleanup now).data_ =
      s.data_.filter (fun p => !(decide (p.2.expiryTime ≠ 0) && decide (p.2.expiryTime ≤ now))) := by
    rw [← hfun]
    simp [performCleanup, hinit]
  refine ⟨hdata, ?_, ?_, ?_, by simp [performCleanup, hinit], by simp [performCleanup, hinit]⟩
  · intro p
    rw [hdata, List.mem_filter]
    simp only [Bool.not_eq_true', Bool.and_eq_false_iff, decide_eq_false_iff_not, ne_eq,
      not_and, not_le, not_not]
    constructor
    · rintro ⟨hp, h⟩
      refine ⟨hp, fun h0 => ?_⟩
      rcases h with h | h
      · exact absurd h h0
      · exact h
    · rintro ⟨hp, h⟩
      refine ⟨hp, ?_⟩
      by_cases h0 : p.2.expiryTime = 0
      · exact Or.inl h0
      · exact Or.inr (h h0)
  · intro p hp
    rw [hdata, ← hfun] at hp
    simpa using (List.mem_filter.1 hp).2
  · intro hwf k
    rw [hdata]
    exact UMap.find_filter_of_nodup s.data_
      (fun e => !(decide (e.expiryTime ≠ 0) && decide (e.expiryTime ≤ now))) k hwf

/-- Witness of C14: the sweep at clock 60 removes `"b"` (expiry 50) and
keeps `"a"` (no expiry). -/
theorem C14_sweep_exact_witness :
    (((fresh.set "a" [1, 2, 3] 0 0).2.set "b" [9] 50 0).2.performCleanup 60).data_ =
      [("a", { value := [1, 2, 3], expiryTime := 0, createdTime := 0 })] :=
  (C14_sweep_exact ((fresh.set "a" [1, 2, 3] 0 0).2.set "b" [9] 50 0).2 60
    (by decide)).1.trans (by decide)

/-! ## DataLayer: `del`, `expire` and persistent entries -/

/-- C15. On an initialised store and for a non-empty key, `del` returns
true exactly when the key is bound; afterwards the key is unbound, so that
`get` and `exists` of it return false, the binding of every other key is as
before, and when the key was unbound the store is as before. -/
theorem C15_del_removes (s : DataLayer) (k : String) (out : Bytes) (now : Nat)
    (hinit : s.initialized_ = true) (hk : k ≠ "") :
    ((s.del k).1 = true ↔ ∃ e, UMap.find s.data_ k = some e) ∧
    UMap.find (s.del k).2.data_ k = none ∧
    ((s.del k).2.get k out now).1 = false ∧
    ((s.del k).2.«exists» k now).1 = false ∧
    (∀ k', k' ≠ k → UMap.find (s.del k).2.data_ k' = UMap.find s.data_ k') ∧
    (UMap.find s.data_ k = none → (s.del k).2 = s) ∧
    (s.del k).2.initialized_ = true := by
  have hke := isEmpty_eq_false_of_ne k hk
  cases hf : UMap.find s.data_ k with
  | none =>
    simp [del, get, DataLayer.«exists», hke, hinit, hf]
  | some e =>
    simp [del, get, DataLayer.«exists», hke, hinit, hf, UMap.find_erase_self]
    intro k' hk'
    exact UMap.find_erase_ne _ _ _ hk'

/-- Witness of C15: `"greeting"` is deleted and `exists` then fails. -/
theorem C15_del_removes_witness :
    ((fresh.set "greeting" [72] 0 0).2.del "greeting").1 = true ∧
    (((fresh.set "greeting" [72] 0 0).2.del "greeting").2.«exists» "greeting" 1).1 = false :=
  ⟨(C15_del_removes (fresh.set "greeting" [72] 0 0).2 "greeting" [] 1 (by decide)
      (by decide)).1.2 ⟨{ value := [72], expiryTime := 0, createdTime := 0 }, by decide⟩,
   (C15_del_removes (fresh.set "greeting" [72] 0 0).2 "greeting" [] 1 (by decide)
      (by decide)).2.2.2.1⟩

/-- C16. On an initialised store and for a non-empty key, `expire` returns
false and leaves the store as it is when the key is unbound; when the key
is bound it returns true and the key is then bound to the same value and
creation time with the expiry set to the 32-bit sum `now + ttlMs`, the
binding of every other key being as before. -/
theorem C16_expire_sets_expiry (s : DataLayer) (k : String) (ttlMs now : Nat)
    (hinit : s.initialized_ = true) (hk : k ≠ "") :
    (UMap.find s.data_ k = none → s.expire k ttlMs now = (false, s)) ∧
    (∀ e, UMap.find s.data_ k = some e →
      (s.expire k ttlMs now).1 = true ∧
      UMap.find (s.expire k ttlMs now).2.data_ k =
        some { value := e.value, createdTime := e.createdTime,
               expiryTime := (now + ttlMs) % 2 ^ 32 } ∧
      (∀ k', k' ≠ k → UMap.find (s.expire k ttlMs now).2.data_ k' = UMap.find s.data_ k') ∧
      (s.expire k ttlMs now).2.initialized_ = true) := by
  have hke := isEmpty_eq_false_of_ne k hk
  constructor
  · intro hf
    simp [expire, hke, hinit, hf]
  · intro e hf
    simp only [expire, hke, hinit, hf]
    refine ⟨by simp, ?_, ?_, by simp⟩
    · simp [UMap.find_assign_self, add32, U32]
    · intro k' hk'
      simpa using UMap.find_assign_ne _ _ _ _ hk'

/-- Witness of C16: `"greeting"`, set at clock 100, is given 5000 ms at
clock 200. -/
theorem C16_expire_sets_expiry_witness :
    UMap.find ((fresh.set "greeting" [72] 0 100).2.expire "greeting" 5000 200).2.data_
      "greeting" = some { value := [72], createdTime := 100, expiryTime := 5200 } :=
  ((C16_expire_sets_expiry (fresh.set "greeting" [72] 0 100).2 "greeting" 5000 200
    (by decide) (by decide)).2 { value := [72], createdTime := 100, expiryTime := 0 }
    (by decide)).2.1

/-- A sequence of operations none of which is a `set`, `del` or `expire` of
`k` keeps a binding of `k` whose expiry is 0, whatever clock values the
operations read. -/
theorem run_keeps_persistent (trace : List (Op × Nat)) (s : DataLayer) (k : String)
    (e : DataEntry) (hinit : s.initialized_ = true) (hwf : s.WF)
    (hquiet : ∀ p ∈ trace, p.1.writes k = false)
    (hf : UMap.find s.data_ k = some e) (hzero : e.expiryTime = 0) :
    (run s trace).initialized_ = true ∧ UMap.find (run s trace).data_ k = some e := by
  induction trace generalizing s with
  | nil => exact ⟨hinit, hf⟩
  | cons p rest ih =>
    obtain ⟨op, now⟩ := p
    have hp := hquiet (op, now) (List.mem_cons_self _ _)
    have hrest : ∀ q ∈ rest, q.1.writes k = false :=
      fun q hq => hquiet q (List.mem_cons_of_mem _ hq)
    obtain ⟨hi1, hw1, hf1⟩ := apply_frame s op now k hinit hwf hp
    have hkeep : UMap.find (op.apply s now).data_ k = some e := by
      rcases hf1 with h1 | ⟨_, e1, he1, hx⟩
      · rw [h1, hf]
      · rw [hf] at he1
        cases he1
        have : isExpired e now = false := (isExpired_eq_false_iff e now).2 (Or.inl hzero)
        rw [this] at hx
        exact absurd hx (by simp)
    exact ih (op.apply s now) hi1 hw1 hrest hkeep

/-- C17. On an initialised, well-formed store and for a non-empty key `k`,
after `set` of `k` with `ttlMs = 0`, and after any sequence of store
operations and sweeps reading any clock values, none a `set`, `del` or
`expire` of `k`, at every clock value `ttl` of `k` returns -1, `exists`
returns true and `get` returns the value set, each leaving the store as it
is. -/
theorem C17_persistent_never_expires (s : DataLayer) (k : String) (v out : Bytes)
    (T now : Nat) (trace : List (Op × Nat))
    (hinit : s.initialized_ = true) (hwf : s.WF) (hk : k ≠ "")
    (hquiet : ∀ p ∈ trace, p.1.writes k = false) :
    (run (s.set k v 0 T).2 trace).ttl k now = (-1, run (s.set k v 0 T).2 trace) ∧
    (run (s.set k v 0 T).2 trace).«exists» k now = (true, run (s.set k v 0 T).2 trace) ∧
    (run (s.set k v 0 T).2 trace).get k out now =
      (true, v, run (s.set k v 0 T).2 trace) := by
  have hke := isEmpty_eq_false_of_ne k hk
  have hfacts : (s.set k v 0 T).2.initialized_ = true ∧ (s.set k v 0 T).2.WF ∧
      UMap.find (s.set k v 0 T).2.data_ k = some (DataEntry.mk v 0 T) := by
    rw [set_eq s k v 0 T hinit hk, if_neg (by decide)]
    exact ⟨hinit, UMap.nodup_assign _ _ _ hwf, UMap.find_assign_self _ _ _⟩
  generalize (s.set k v 0 T).2 = s1 at hfacts ⊢
  obtain ⟨hinit1, hwf1, hfind1⟩ := hfacts
  obtain ⟨hi2, hf2⟩ := run_keeps_persistent trace s1 k _ hinit1 hwf1 hquiet hfind1 rfl
  have hx : isExpired (DataEntry.mk v 0 T) now = false :=
    (isExpired_eq_false_iff _ now).2 (Or.inl rfl)
  refine ⟨?_, ?_, ?_⟩
  · simp [ttl, hke, hi2, hf2, hx]
  · simp [DataLayer.«exists», hke, hi2, hf2, hx]
  · simp [get, hke, hi2, hf2, hx]

/-- Witness of C17: `"a"` set with no TTL at clock 4294967000 is still
there at clock 10000, after the clock has wrapped, with a sweep just before
the wrap and a sweep and a `keys` scan after it. -/
theorem C17_persistent_never_expires_witness :
    (run (fresh.set "a" [1, 2, 3] 0 4294967000).2
      [(Op.performCleanup, 4294967295), (Op.performCleanup, 3), (Op.keys, 5)]).ttl "a" 10000
      = (-1, run (fresh.set "a" [1, 2, 3] 0 4294967000).2
      [(Op.performCleanup, 4294967295), (Op.performCleanup, 3), (Op.keys, 5)]) :=
  (C17_persistent_never_expires fresh "a" [1, 2, 3] [] 4294967000 10000
    [(Op.performCleanup, 4294967295), (Op.performCleanup, 3), (Op.keys, 5)]
    (by decide) (by decide) (by decide) (by decide)).1

end DataLayer

/-! ## NetworkLayer: `subscribe`, `unsubscribe` and `publish` without subscribers -/

theorem not_mem_keys_of_find_none {β : Type} (m : List (String × β)) (k : String)
    (h : UMap.find m k = none) : k ∉ m.map Prod.fst := by
  induction m with
  | nil => simp
  | cons p rest ih =>
    obtain ⟨k0, v0⟩ := p
    by_cases h0 : k0 = k
    · simp [UMap.find, h0] at h
    · simp only [UMap.find, h0, if_false] at h
      simp only [List.map_cons, List.mem_cons, not_or]
      exact ⟨fun hh => h0 hh.symm, ih h⟩

theorem not_mem_keys_erase {β : Type} (m : List (String × β)) (k : String) :
    k ∉ (UMap.erase m k).map Prod.fst := by
  intro hmem
  obtain ⟨p, hp, hpk⟩ := List.mem_map.1 hmem
  have := (List.mem_filter.1 hp).2
  simp [hpk] at this

theorem erase_of_find_none {β : Type} (m : List (String × β)) (k : String)
    (h : UMap.find m k = none) : UMap.erase m k = m := by
  unfold UMap.erase
  rw [List.filter_eq_self]
  intro p hp
  have hk := not_mem_keys_of_find_none m k h
  have : p.1 ≠ k := fun hh => hk (hh ▸ List.mem_map.2 ⟨p, hp, rfl⟩)
  simp [this]

theorem assign_of_find {β : Type} (m : List (String × β)) (k : String) (v : β)
    (h : UMap.find m k = some v) : UMap.assign m k v = m := by
  induction m with
  | nil => simp [UMap.find] at h
  | cons p rest ih =>
    obtain ⟨k0, v0⟩ := p
    by_cases h0 : k0 = k
    · simp only [UMap.find, h0, if_true, Option.some.injEq] at h
      simp [UMap.assign, h0, h]
    · simp only [UMap.find, h0, if_false] at h
      simp [UMap.assign, h0, ih h]

theorem find_none_of_erase_nil {β : Type} (m : List (String × β)) (k k' : String)
    (h : UMap.erase m k = []) (hne : k' ≠ k) : UMap.find m k' = none := by
  rw [← UMap.find_erase_ne m k k' hne, h]
  rfl

namespace NetworkLayer

/-- C18. `subscribe` returns false exactly when the topic is empty, the
name is empty, the callback is missing or the broker is not initialised,
and then the broker is as before; in every other case it returns true, and
afterwards the callback registered for the topic under the name is the one
given, while what is registered for every other pair of a topic and a name
is as before. -/
theorem C18_subscribe_contract (nl : NetworkLayer) (t n : String) (cb : MessageCallback) :
    ((nl.subscribe t n cb).1 = false ↔
      (t = "" ∨ n = "" ∨ cb = none ∨ nl.initialized_ = false)) ∧
    ((t = "" ∨ n = "" ∨ cb = none ∨ nl.initialized_ = false) → (nl.subscribe t n cb).2 = nl) ∧
    (¬ (t = "" ∨ n = "" ∨ cb = none ∨ nl.initialized_ = false) →
      (nl.subscribe t n cb).1 = true ∧
      (nl.subscribe t n cb).2.subscription t n = some cb ∧
      (∀ t' n', (t', n') ≠ (t, n) →
        (nl.subscribe t n cb).2.subscription t' n' = nl.subscription t' n') ∧
      (nl.subscribe t n cb).2.initialized_ = true) := by
  by_cases hinv : (t = "" ∨ n = "" ∨ cb = none ∨ nl.initialized_ = false)
  · have hres : nl.subscribe t n cb = (false, nl) := by
      rcases hinv with h | h | h | h
      · have : t.isEmpty = true := (String.isEmpty_iff t).2 h
        simp [subscribe, this]
      · have : n.isEmpty = true := (String.isEmpty_iff n).2 h
        simp [subscribe, this]
      · simp [subscribe, h]
      · simp [subscribe, h]
    rw [hres]
    exact ⟨⟨fun _ => hinv, fun _ => rfl⟩, fun _ => rfl, fun h => absurd hinv h⟩
  · have hinv1 := hinv
    simp only [not_or] at hinv1
    obtain ⟨ht, hn, hcb, hi⟩ := hinv1
    have hte := isEmpty_eq_false_of_ne t ht
    have hne := isEmpty_eq_false_of_ne n hn
    have hinit : nl.initialized_ = true := by
      cases h : nl.initialized_ with
      | true => rfl
      | false => exact absurd h hi
    obtain ⟨c, rfl⟩ : ∃ c, cb = some c := by
      cases cb with
      | none => exact absurd rfl hcb
      | some c => exact ⟨c, rfl⟩
    have hsubs : (nl.subscribe t n (some c)).2.subscribers_ =
        UMap.assign nl.subscribers_ t
          (UMap.assign ((UMap.find nl.subscribers_ t).getD []) n (some c)) := by
      simp [subscribe, hte, hne, hinit]
    have h1 : (nl.subscribe t n (some c)).1 = true := by
      simp [subscribe, hte, hne, hinit]
    refine ⟨⟨fun h => ?_, fun h => absurd h hinv⟩, fun h => absurd h hinv, fun _ => ?_⟩
    · rw [h1] at h
      exact absurd h (by simp)
    · refine ⟨h1, ?_, ?_, by simp [subscribe, hte, hne, hinit]⟩
      · simp only [subscription, hsubs, UMap.find_assign_self]
      · intro t' n' hpair
        simp only [subscription, hsubs]
        by_cases htt : t' = t
        · subst htt
          have hnn : n' ≠ n := fun hh => hpair (by rw [hh])
          rw [UMap.find_assign_self]
          simp only [UMap.find_assign_ne _ _ _ _ hnn]
          cases hf : UMap.find nl.subscribers_ t' with
          | none => simp [UMap.find]
          | some b => simp
        · rw [UMap.find_assign_ne _ _ _ _ htt]

/-- Witness of C18: a first subscription of `"S1"` to `"x"`. -/
theorem C18_subscribe_contract_witness :
    (fresh.subscribe "x" "S1" (some 1)).1 = true ∧
    (fresh.subscribe "x" "S1" (some 1)).2.subscription "x" "S1" = some (some 1) :=
  ⟨((C18_subscribe_contract fresh "x" "S1" (some 1)).2.2 (by decide)).1,
   ((C18_subscribe_contract fresh "x" "S1" (some 1)).2.2 (by decide)).2.1⟩

/-- C19. On an initialised broker and for a non-empty topic `t` and name
`n`, `unsubscribe` returns true; afterwards nothing is registered for `t`
under `n`, what is registered for every other pair of a topic and a name is
as before, and when nothing is registered for `t` under any name then `t`
is not among the topics `getTopics` lists; and on a registry without empty
bucket, when nothing was registered for `t` under `n`, the broker is as
before. -/
theorem C19_unsubscribe_contract (nl : NetworkLayer) (t n : String)
    (hinit : nl.initialized_ = true) (ht : t ≠ "") (hn : n ≠ "") :
    (nl.unsubscribe t n).1 = true ∧
    (nl.unsubscribe t n).2.subscription t n = none ∧
    (∀ t' n', (t', n') ≠ (t, n) →
      (nl.unsubscribe t n).2.subscription t' n' = nl.subscription t' n') ∧
    ((∀ n', (nl.unsubscribe t n).2.subscription t n' = none) →
      t ∉ (nl.unsubscribe t n).2.getTopics) ∧
    (nl.NoEmptyBucket → nl.subscription t n = none → (nl.unsubscribe t n).2 = nl) ∧
    (nl.unsubscribe t n).2.initialized_ = true := by
  have hte := isEmpty_eq_false_of_ne t ht
  have hne := isEmpty_eq_false_of_ne n hn
  cases hf : UMap.find nl.subscribers_ t with
  | none =>
    have hres : nl.unsubscribe t n = (true, nl) := by
      simp [unsubscribe, hte, hne, hinit, hf]
    rw [hres]
    refine ⟨rfl, by simp [subscription, hf], fun _ _ _ => rfl, fun _ => ?_, fun _ _ => rfl, hinit⟩
    simp only [getTopics, hinit]
    exact not_mem_keys_of_find_none _ _ hf
  | some bucket =>
    cases hb : (UMap.erase bucket n).isEmpty with
    | true =>
      have hnil : UMap.erase bucket n = [] := List.isEmpty_iff.1 hb
      have hres : nl.unsubscribe t n =
          (true, { nl with subscribers_ := UMap.erase nl.subscribers_ t }) := by
        simp [unsubscribe, hte, hne, hinit, hf, hb]
      rw [hres]
      refine ⟨rfl, by simp [subscription, UMap.find_erase_self], ?_, fun _ => ?_, ?_, hinit⟩
      · intro t' n' hpair
        simp only [subscription]
        by_cases htt : t' = t
        · subst htt
          have hnn : n' ≠ n := fun hh => hpair (by rw [hh])
          rw [UMap.find_erase_self, hf]
          exact (find_none_of_erase_nil bucket n n' hnil hnn).symm
        · rw [UMap.find_erase_ne _ _ _ htt]
      · simp only [getTopics, hinit]
        exact not_mem_keys_erase _ _
      · intro hneb hsub
        exfalso
        simp only [subscription, hf] at hsub
        have hbucket : bucket ≠ [] := hneb (t, bucket) (mem_of_find _ _ _ hf)
        rw [erase_of_find_none bucket n hsub] at hnil
        exact hbucket hnil
    | false =>
      have hres : nl.unsubscribe t n =
          (true, NetworkLayer.mk nl.subscribersMutex_
            (UMap.assign nl.subscribers_ t (UMap.erase bucket n)) nl.initialized_) := by
        simp [unsubscribe, hte, hne, hinit, hf, hb]
      rw [hres]
      refine ⟨rfl, ?_, ?_, fun hall => ?_, ?_, hinit⟩
      · simp [subscription, UMap.find_assign_self, UMap.find_erase_self]
      · intro t' n' hpair
        simp only [subscription]
        by_cases htt : t' = t
        · subst htt
          have hnn : n' ≠ n := fun hh => hpair (by rw [hh])
          rw [UMap.find_assign_self, hf]
          exact UMap.find_erase_ne _ _ _ hnn
        · rw [UMap.find_assign_ne _ _ _ _ htt]
      · exfalso
        cases hl : UMap.erase bucket n with
        | nil => simp [hl] at hb
        | cons p rest =>
          have := hall p.1
          simp [subscription, UMap.find_assign_self, hl, UMap.find] at this
      · intro _ hsub
        simp only [subscription, hf] at hsub
        rw [erase_of_find_none bucket n hsub, assign_of_find _ _ _ hf]

/-- Witness of C19: the only subscriber of `"x"` unsubscribes and `"x"` is
no longer a topic. -/
theorem C19_unsubscribe_contract_witness :
    "x" ∉ ((fresh.subscribe "x" "S1" (some 1)).2.unsubscribe "x" "S1").2.getTopics :=
  (C19_unsubscribe_contract (fresh.subscribe "x" "S1" (some 1)).2 "x" "S1"
    (by decide) (by decide) (by decide)).2.2.2.1
    (by
      intro n'
      have h : ((fresh.subscribe "x" "S1" (some 1)).2.unsubscribe "x" "S1").2.subscribers_
          = [] := by decide
      simp [subscription, h, UMap.find])

/-- C20. On an initialised broker, for a non-empty topic with no
subscriber (with or without a bucket) and a payload of non-zero length
behind a non-null pointer, `publish` returns true, and the delivery it
creates, run on that broker, calls no callback, lets no exception out and
leaves the broker as it is. -/
theorem C20_publish_no_subscribers (nl : NetworkLayer) (t publisher : String)
    (data len : Nat) (created : Bool) (mem : Memory) (handlers : Handlers)
    (hinit : nl.initialized_ = true) (ht : t ≠ "") (hlen : len ≠ 0)
    (hzero : nl.getSubscriberCount t = 0) :
    (nl.publish t (some data) len publisher created).1 = true ∧
    (∀ args, (nl.publish t (some data) len publisher created).2 = some args →
      nl.runDeliveryTask args mem handlers = { broker := nl, calls := [], escaped := false }) ∧
    nl.deliverMessage t (some data) len mem handlers =
      { broker := nl, calls := [], escaped := false } := by
  have hte := isEmpty_eq_false_of_ne t ht
  have hdel : nl.deliverMessage t (some data) len mem handlers =
      { broker := nl, calls := [], escaped := false } := by
    cases hf : UMap.find nl.subscribers_ t with
    | none => simp [deliverMessage, hf]
    | some bucket =>
      have hb : bucket = [] := by
        simp only [getSubscriberCount, hinit, hf] at hzero
        exact List.length_eq_zero.1 (by simpa using hzero)
      simp [deliverMessage, hf, hb, deliverLoop]
  refine ⟨by simp [publish, hte, hlen, hinit], ?_, hdel⟩
  intro args hargs
  cases created with
  | false => simp [publish, hte, hlen, hinit] at hargs
  | true =>
    simp [publish, hte, hlen, hinit] at hargs
    subst hargs
    exact hdel

/-- Witness of C20: a message published on a topic nobody subscribed to. -/
theorem C20_publish_no_subscribers_witness :
    (fresh.publish "camera/frame" (some 100) 1 "CameraApp" true).1 = true ∧
    fresh.deliverMessage "camera/frame" (some 100) 1 (memWith 1) quietHandlers =
      { broker := fresh, calls := [], escaped := false } :=
  ⟨(C20_publish_no_subscribers fresh "camera/frame" "CameraApp" 100 1 true (memWith 1)
      quietHandlers (by decide) (by decide) (by decide) (by decide)).1,
   (C20_publish_no_subscribers fresh "camera/frame" "CameraApp" 100 1 true (memWith 1)
      quietHandlers (by decide) (by decide) (by decide) (by decide)).2.2⟩

end NetworkLayer

/-! ## Failing closed, task runner and `init` -/

namespace NetworkLayer

/-- C21. `publish` returns false exactly when the topic is empty, the
payload pointer is null, the length is 0 or the broker is not initialised,
and in that case no delivery task is created, whether or not a task could
have been created; `publish` has no access to the registry other than
reading `initialized_`, so the registry is as before. -/
theorem C21_publish_rejects (nl : NetworkLayer) (t publisher : String) (data : Option Nat)
    (len : Nat) (created : Bool) :
    ((t = "" ∨ data = none ∨ len = 0 ∨ nl.initialized_ = false) →
      nl.publish t data len publisher created = (false, none)) ∧
    ((nl.publish t data len publisher created).1 = false ↔
      (t = "" ∨ data = none ∨ len = 0 ∨ nl.initialized_ = false)) ∧
    ApiCall.apply nl (ApiCall.publish t data len publisher created) = nl := by
  have hinv : (t = "" ∨ data = none ∨ len = 0 ∨ nl.initialized_ = false) →
      nl.publish t data len publisher created = (false, none) := by
    intro h
    rcases h with h | h | h | h
    · have : t.isEmpty = true := (String.isEmpty_iff t).2 h
      simp [publish, this]
    · simp [publish, h]
    · simp [publish, h]
    · simp only [publish, h]
      split <;> simp
  refine ⟨hinv, ⟨fun h => ?_, fun h => by rw [hinv h]⟩, rfl⟩
  by_contra hno
  simp only [not_or] at hno
  obtain ⟨ht, hd, hl, hi⟩ := hno
  have hte := isEmpty_eq_false_of_ne t ht
  have hinit : nl.initialized_ = true := by
    cases hc : nl.initialized_ with
    | true => rfl
    | false => exact absurd hc hi
  obtain ⟨a, rfl⟩ : ∃ a, data = some a := by
    cases data with
    | none => exact absurd rfl hd
    | some a => exact ⟨a, rfl⟩
  simp [publish, hte, hl, hinit] at h

/-- Witness of C21: a payload of length 0 is rejected. -/
theorem C21_publish_rejects_witness :
    fresh.publish "x" (some 100) 0 "" true = (false, none) :=
  (C21_publish_rejects fresh "x" "" (some 100) 0 true).1 (by decide)

end NetworkLayer

namespace DataLayer

/-- C24. On a store that is not initialised, or for an empty key, `set`,
`get`, `del`, `exists` and `expire` return false and `ttl` returns -2, each
leaving the store (and the out-parameter of `get`) as it is; on a store
that is not initialised `keys` returns the empty sequence, `size` returns 0
and `performCleanup` does nothing, the store being as before. -/
theorem C24_fails_closed (s : DataLayer) (k : String) (v out : Bytes) (ttlMs now : Nat) :
    ((k = "" ∨ s.initialized_ = false) →
      s.set k v ttlMs now = (false, s) ∧
      s.get k out now = (false, out, s) ∧
      s.del k = (false, s) ∧
      s.«exists» k now = (false, s) ∧
      s.expire k ttlMs now = (false, s) ∧
      s.ttl k now = (-2, s)) ∧
    (s.initialized_ = false →
      s.keys now = ([], s) ∧ s.size = 0 ∧ s.performCleanup now = s) := by
  constructor
  · intro h
    have hg : (k.isEmpty || !s.initialized_) = true := by
      rcases h with h | h
      · have : k.isEmpty = true := (String.isEmpty_iff k).2 h
        simp [this]
      · simp [h]
    simp only [set, get, del, DataLayer.«exists», expire, ttl, hg]
    simp
  · intro h
    simp [keys, size, performCleanup, h]

/-- Witness of C24: `set` on a store that was never initialised, and `get`
with an empty key on an initialised one. -/
theorem C24_fails_closed_witness :
    DataLayer.new.set "a" [1] 0 0 = (false, DataLayer.new) ∧
    fresh.get "" [7] 0 = (false, [7], fresh) :=
  ⟨((C24_fails_closed DataLayer.new "a" [1] [] 0 0).1 (by decide)).1,
   ((C24_fails_closed fresh "" [] [7] 0 0).1 (by decide)).2.1⟩

/-- C27, store and broker. `init` on an initialised store, with any
interval and whatever the allocations would give, returns true and leaves
the store as it is; a first `init` of a store returns false and leaves it
uninitialised, with its entries as before, when the mutex or the sweep task
cannot be allocated, and returns true and initialises it when both can.
`init` on an initialised broker returns true and leaves the broker as it
is; a first `init` of a broker returns false and leaves it uninitialised,
with its registry as before, when the mutex cannot be allocated. -/
theorem C27_init_idempotent (s : DataLayer) (nl : NetworkLayer) (cleanupIntervalMs : Nat)
    (mutex task : Option Nat) :
    (s.initialized_ = true → s.init cleanupIntervalMs mutex task = (true, s)) ∧
    (s.initialized_ = false → (mutex = none ∨ task = none) →
      (s.init cleanupIntervalMs mutex task).1 = false ∧
      (s.init cleanupIntervalMs mutex task).2.initialized_ = false ∧
      (s.init cleanupIntervalMs mutex task).2.dataMutex_ = none ∧
      (s.init cleanupIntervalMs mutex task).2.cleanupTask_ = s.cleanupTask_ ∧
      (s.init cleanupIntervalMs mutex task).2.data_ = s.data_) ∧
    (s.initialized_ = false → ∀ m h, mutex = some m → task = some h →
      s.init cleanupIntervalMs mutex task =
        (true, DataLayer.mk (some m) (some h) s.data_ cleanupIntervalMs true)) ∧
    (nl.initialized_ = true → nl.init mutex = (true, nl)) ∧
    (nl.initialized_ = false → mutex = none →
      (nl.init mutex).1 = false ∧ (nl.init mutex).2.initialized_ = false ∧
      (nl.init mutex).2.subscribersMutex_ = none ∧
      (nl.init mutex).2.subscribers_ = nl.subscribers_) := by
  refine ⟨?_, ?_, ?_, ?_, ?_⟩
  · intro h
    simp [DataLayer.init, h]
  · intro h hfail
    cases mutex with
    | none => simp [DataLayer.init, h]
    | some m =>
      cases task with
      | none => simp [DataLayer.init, h]
      | some t => simp at hfail
  · intro h m t hm ht
    subst hm
    subst ht
    simp [DataLayer.init, h]
  · intro h
    simp [NetworkLayer.init, h]
  · intro h hm
    subst hm
    simp [NetworkLayer.init, h]

/-- Witness of C27: a second `init` of a store that holds `"a"`, with
another interval and failing allocations, changes nothing. -/
theorem C27_init_idempotent_witness :
    (fresh.set "a" [1] 0 0).2.init 100 none none = (true, (fresh.set "a" [1] 0 0).2) :=
  (C27_init_idempotent (fresh.set "a" [1] 0 0).2 NetworkLayer.fresh 100 none none).1
    (by decide)

end DataLayer

namespace ApplicationInterface

/-- C25. `createTask` on a runner that has a task returns false and
leaves the runner, its task handle and its period included, as it is;
`createTask` on a runner without a task, when the creation of the task
passes, returns true, and then `isTaskRunning` is true, the handle is the
one of the new task and the period is the one given. -/
theorem C25_one_task_per_runner (a : ApplicationInterface) (taskName : String)
    (stackSize priority coreId updateFrequencyMs : Nat) (created : Option Nat) (h : Nat) :
    (a.isTaskRunning = true →
      a.createTask taskName stackSize priority coreId updateFrequencyMs created = (false, a)) ∧
    (a.isTaskRunning = false →
      (a.createTask taskName stackSize priority coreId updateFrequencyMs (some h)).1 = true ∧
      (a.createTask taskName stackSize priority coreId updateFrequencyMs
        (some h)).2.isTaskRunning = true ∧
      (a.createTask taskName stackSize priority coreId updateFrequencyMs
        (some h)).2.taskHandle_ = some h ∧
      (a.createTask taskName stackSize priority coreId updateFrequencyMs
        (some h)).2.updateFrequencyMs_ = updateFrequencyMs) := by
  constructor
  · intro hrun
    unfold isTaskRunning at hrun
    simp [createTask, hrun]
  · intro hrun
    unfold isTaskRunning at hrun
    simp [createTask, isTaskRunning, hrun]

/-- Witness of C25: a second `createTask` on a running runner. -/
theorem C25_one_task_per_runner_witness :
    (new.createTask "LED" 4096 2 0 10 (some 1)).2.createTask "LED" 4096 2 0 20 (some 2) =
      (false, (new.createTask "LED" 4096 2 0 10 (some 1)).2) :=
  (C25_one_task_per_runner (new.createTask "LED" 4096 2 0 10 (some 1)).2 "LED" 4096 2 0 20
    (some 2) 0).1 (by decide)

/-- C26. For every runner, `stopTask` twice leaves the runner that
`stopTask` once leaves; on a runner without a task `stopTask` changes
nothing; and after `stopTask` the runner has no task, `isTaskRunning` being
false, while its period and its layer pointers are as before. -/
theorem C26_stopTask_idempotent (a : ApplicationInterface) :
    a.stopTask.stopTask = a.stopTask ∧
    (a.isTaskRunning = false → a.stopTask = a) ∧
    a.stopTask.isTaskRunning = false ∧
    a.stopTask.updateFrequencyMs_ = a.updateFrequencyMs_ ∧
    a.stopTask.networkLayer_ = a.networkLayer_ ∧
    a.stopTask.dataLayer_ = a.dataLayer_ := by
  cases h : a.taskHandle_ with
  | none => simp [stopTask, isTaskRunning, h]
  | some x => simp [stopTask, isTaskRunning, h]

/-- Witness of C26: `stopTask` on a newly constructed runner. -/
theorem C26_stopTask_idempotent_witness : new.stopTask = new :=
  (C26_stopTask_idempotent new).2.1 (by decide)

end ApplicationInterface

/-! ## DataLayer: expired entries under `expire` and `del`, and the 32-bit expiry -/

namespace DataLayer

theorem isExpired_eq_true_of_le (e : DataEntry) (now : Nat) (h0 : e.expiryTime ≠ 0)
    (hle : e.expiryTime ≤ now) : isExpired e now = true := by
  unfold isExpired
  have : 0 < e.expiryTime := Nat.pos_of_ne_zero h0
  simp [this, hle]

/-- C29, as stated, fails. The key `"k"`, set with 50 ms at clock
4294967000, is expired and not yet evicted at clock 4294967295, where `get`
returns false; `expire` with 2 ms at that clock returns true and stores the
expiry 1, and `get` at the same clock still returns false. -/
theorem C29_expire_revives_counterexample :
    ((fresh.set "k" [1] 50 4294967000).2.get "k" [] 4294967295).1 = false ∧
    ((fresh.set "k" [1] 50 4294967000).2.expire "k" 2 4294967295).1 = true ∧
    UMap.find ((fresh.set "k" [1] 50 4294967000).2.expire "k" 2 4294967295).2.data_ "k" =
      some { value := [1], expiryTime := 1, createdTime := 4294967000 } ∧
    (((fresh.set "k" [1] 50 4294967000).2.expire "k" 2 4294967295).2.get "k" []
      4294967295).1 = false := by
  decide

/-- C29, amended. On an initialised store, for a non-empty key bound to an
entry that is expired at clock `now`: `get` and `exists` return false, `del`
returns true, and `expire` with `t > 0`, where `now + t` is below `2 ^ 32`,
returns true, after which `get` at clock `now` returns the value of the
entry. -/
theorem C29_expire_del_skip_expiry (s : DataLayer) (k : String) (out : Bytes) (t now : Nat)
    (e : DataEntry)
    (hinit : s.initialized_ = true) (hk : k ≠ "")
    (hf : UMap.find s.data_ k = some e) (hx : isExpired e now = true)
    (ht : 0 < t) (hsum : now + t < 2 ^ 32) :
    (s.get k out now).1 = false ∧
    (s.«exists» k now).1 = false ∧
    (s.del k).1 = true ∧
    (s.expire k t now).1 = true ∧
    (s.expire k t now).2.get k out now = (true, e.value, (s.expire k t now).2) := by
  have hke := isEmpty_eq_false_of_ne k hk
  have hmod : add32 now t = now + t := by
    unfold add32 U32
    exact Nat.mod_eq_of_lt hsum
  have hlive : isExpired (DataEntry.mk e.value (now + t) e.createdTime) now = false := by
    rw [isExpired_eq_false_iff]
    right
    show now < now + t
    omega
  refine ⟨?_, ?_, ?_, ?_, ?_⟩
  · simp [get, hke, hinit, hf, hx]
  · simp [DataLayer.«exists», hke, hinit, hf, hx]
  · simp [del, hke, hinit, hf]
  · simp [expire, hke, hinit, hf]
  · simp [expire, get, hke, hinit, hf, hmod, UMap.find_assign_self, hlive]

/-- Witness of C29, amended: `"k"`, set with 50 ms at clock 0 and expired
at clock 60, is given 1000 ms at clock 60 and read back. -/
theorem C29_expire_del_skip_expiry_witness :
    ((fresh.set "k" [1] 50 0).2.expire "k" 1000 60).2.get "k" [] 60 =
      (true, [1], ((fresh.set "k" [1] 50 0).2.expire "k" 1000 60).2) :=
  (C29_expire_del_skip_expiry (fresh.set "k" [1] 50 0).2 "k" [] 1000 60
    { value := [1], expiryTime := 50, createdTime := 0 }
    (by decide) (by decide) (by decide) (by decide) (by decide) (by decide)).2.2.2.2

/-- C30, as stated, fails in its last part. The key `"k"`, set with 20 ms
at clock 4294967286, gets the expiry 10, a non-zero value below the clock;
at its next access, `get` at clock 5 (15 ms later, the clock having
wrapped), it is not expired: `get` returns its value. -/
theorem C30_wrapped_expiry_counterexample :
    UMap.find (fresh.set "k" [1] 20 4294967286).2.data_ "k" =
      some { value := [1], expiryTime := 10, createdTime := 4294967286 } ∧
    (4294967286 + 15) % 2 ^ 32 = 5 ∧
    (fresh.set "k" [1] 20 4294967286).2.get "k" [] 5 =
      (true, [1], (fresh.set "k" [1] 20 4294967286).2) := by
  decide

/-- C30, amended. On an initialised store and for a non-empty key `k`:
`set` with `t > 0` stores the expiry `(now + t) mod 2 ^ 32`, and so does
`expire` on a bound key. When that value is 0, `ttl` of `k` returns -1 at
every clock value. When it is not 0 and below `now`, then at every clock
value from `now` on, that is until the clock itself wraps, `get` and
`exists` return false and `ttl` returns -2. -/
theorem C30_expiry_mod (s : DataLayer) (k : String) (v out : Bytes) (t now now' : Nat)
    (hinit : s.initialized_ = true) (hk : k ≠ "") :
    (0 < t →
      UMap.find (s.set k v t now).2.data_ k =
        some { value := v, createdTime := now, expiryTime := (now + t) % 2 ^ 32 } ∧
      ((now + t) % 2 ^ 32 = 0 → ((s.set k v t now).2.ttl k now').1 = -1) ∧
      ((now + t) % 2 ^ 32 ≠ 0 → (now + t) % 2 ^ 32 < now → now ≤ now' →
        ((s.set k v t now).2.get k out now').1 = false ∧
        ((s.set k v t now).2.«exists» k now').1 = false ∧
        ((s.set k v t now).2.ttl k now').1 = -2)) ∧
    (∀ e, UMap.find s.data_ k = some e →
      UMap.find (s.expire k t now).2.data_ k =
        some { value := e.value, createdTime := e.createdTime,
               expiryTime := (now + t) % 2 ^ 32 } ∧
      ((now + t) % 2 ^ 32 = 0 → ((s.expire k t now).2.ttl k now').1 = -1) ∧
      ((now + t) % 2 ^ 32 ≠ 0 → (now + t) % 2 ^ 32 < now → now ≤ now' →
        ((s.expire k t now).2.get k out now').1 = false ∧
        ((s.expire k t now).2.«exists» k now').1 = false ∧
        ((s.expire k t now).2.ttl k now').1 = -2)) := by
  have hke := isEmpty_eq_false_of_ne k hk
  have hadd : add32 now t = (now + t) % 2 ^ 32 := rfl
  have hread : ∀ (s1 : DataLayer) (e1 : DataEntry), s1.initialized_ = true →
      UMap.find s1.data_ k = some e1 →
      (e1.expiryTime = 0 → (s1.ttl k now').1 = -1) ∧
      (e1.expiryTime ≠ 0 → e1.expiryTime < now → now ≤ now' →
        (s1.get k out now').1 = false ∧ (s1.«exists» k now').1 = false ∧
        (s1.ttl k now').1 = -2) := by
    intro s1 e1 hi1 hf1
    constructor
    · intro h0
      have hx : isExpired e1 now' = false := (isExpired_eq_false_iff e1 now').2 (Or.inl h0)
      simp [ttl, hke, hi1, hf1, hx, h0]
    · intro h0 hlt hle
      have hx : isExpired e1 now' = true := isExpired_eq_true_of_le e1 now' h0 (by omega)
      simp [get, DataLayer.«exists», ttl, hke, hi1, hf1, hx]
  constructor
  · intro ht
    have hfacts : (s.set k v t now).2.initialized_ = true ∧
        UMap.find (s.set k v t now).2.data_ k =
          some (DataEntry.mk v ((now + t) % 2 ^ 32) now) := by
      rw [set_eq s k v t now hinit hk, if_pos ht, hadd]
      exact ⟨hinit, UMap.find_assign_self _ _ _⟩
    generalize (s.set k v t now).2 = s1 at hfacts ⊢
    obtain ⟨hi1, hf1⟩ := hfacts
    exact ⟨hf1, (hread s1 _ hi1 hf1).1, (hread s1 _ hi1 hf1).2⟩
  · intro e hf
    have hfacts : (s.expire k t now).2.initialized_ = true ∧
        UMap.find (s.expire k t now).2.data_ k =
          some (DataEntry.mk e.value ((now + t) % 2 ^ 32) e.createdTime) := by
      simp [expire, hke, hinit, hf, hadd, UMap.find_assign_self]
    generalize (s.expire k t now).2 = s1 at hfacts ⊢
    obtain ⟨hi1, hf1⟩ := hfacts
    exact ⟨hf1, (hread s1 _ hi1 hf1).1, (hread s1 _ hi1 hf1).2⟩

/-- Witness of C30, amended: `"k"` set with 6 ms at clock 4294967290 gets
the expiry 0 and `ttl` returns -1 for it; set with 20 ms at clock
4294967286 it gets the expiry 10 and `get` at clock 4294967291 returns
false. -/
theorem C30_expiry_mod_witness :
    ((fresh.set "k" [1] 6 4294967290).2.ttl "k" 4294967295).1 = -1 ∧
    ((fresh.set "k" [1] 20 4294967286).2.get "k" [] 4294967291).1 = false :=
  ⟨((C30_expiry_mod fresh "k" [1] [] 6 4294967290 4294967295 (by decide) (by decide)).1
      (by decide)).2.1 (by decide),
   (((C30_expiry_mod fresh "k" [1] [] 20 4294967286 4294967291 (by decide) (by decide)).1
      (by decide)).2.2 (by decide) (by decide) (by decide)).1⟩

end DataLayer

/-! ## NetworkLayer: the snapshot of a delivery and the registry invariant -/

theorem mem_assign_weak {β : Type} (m : List (String × β)) (k : String) (v : β)
    (p : String × β) (hp : p ∈ UMap.assign m k v) : p = (k, v) ∨ p ∈ m := by
  induction m with
  | nil =>
    simp only [UMap.assign, List.mem_singleton] at hp
    exact Or.inl hp
  | cons q rest ih =>
    obtain ⟨k0, v0⟩ := q
    by_cases h0 : k0 = k
    · simp only [UMap.assign, h0, if_true, List.mem_cons] at hp
      rcases hp with hp | hp
      · exact Or.inl hp
      · exact Or.inr (List.mem_cons_of_mem _ hp)
    · simp only [UMap.assign, h0, if_false, List.mem_cons] at hp
      rcases hp with hp | hp
      · exact Or.inr (by simp [hp])
      · rcases ih hp with h | h
        · exact Or.inl h
        · exact Or.inr (List.mem_cons_of_mem _ h)

theorem assign_ne_nil {β : Type} (m : List (String × β)) (k : String) (v : β) :
    UMap.assign m k v ≠ [] := by
  cases m with
  | nil => simp [UMap.assign]
  | cons q rest =>
    obtain ⟨k0, v0⟩ := q
    by_cases h0 : k0 = k
    · simp [UMap.assign, h0]
    · simp [UMap.assign, h0]

namespace NetworkLayer

theorem deliverLoopTraced_eq (handlers : Handlers) (mem : Memory) (topic : String)
    (data : Option Nat) (len : Nat)
    (snapshot : List (String × MessageCallback)) (nl : NetworkLayer) :
    (deliverLoopTraced handlers mem topic data len snapshot nl).1 =
      deliverLoop handlers mem topic data len snapshot nl ∧
    (deliverLoopTraced handlers mem topic data len snapshot nl).2 =
      (deliverLoop handlers mem topic data len snapshot nl).calls.map
        (fun c => GuardEvent.call c.subscriber c.callback) := by
  induction snapshot generalizing nl with
  | nil => exact ⟨rfl, rfl⟩
  | cons p rest ih =>
    obtain ⟨name, cb⟩ := p
    rcases hr : invoke handlers cb nl with ⟨nl1, outcome⟩
    cases outcome with
    | threwOther => simp [deliverLoopTraced, deliverLoop, hr]
    | returned => simp [deliverLoopTraced, deliverLoop, hr, (ih nl1).1, (ih nl1).2]
    | threwStdException => simp [deliverLoopTraced, deliverLoop, hr, (ih nl1).1, (ih nl1).2]

theorem deliverMessageTraced_eq (nl : NetworkLayer) (topic : String) (data : Option Nat)
    (len : Nat) (mem : Memory) (handlers : Handlers) :
    (nl.deliverMessageTraced topic data len mem handlers).1 =
      nl.deliverMessage topic data len mem handlers ∧
    (nl.deliverMessageTraced topic data len mem handlers).2 =
      GuardEvent.take :: GuardEvent.give ::
        (nl.deliverMessage topic data len mem handlers).calls.map
          (fun c => GuardEvent.call c.subscriber c.callback) := by
  cases hf : UMap.find nl.subscribers_ topic with
  | none => simp [deliverMessageTraced, deliverMessage, hf]
  | some b =>
    simp only [deliverMessageTraced, deliverMessage, hf]
    exact ⟨(deliverLoopTraced_eq handlers mem topic data len b nl).1,
      by rw [(deliverLoopTraced_eq handlers mem topic data len b nl).2]⟩

theorem foldl_guard_calls (cs : List Invocation) (held : Bool) :
    (cs.map (fun c => GuardEvent.call c.subscriber c.callback)).foldl
      (fun held e =>
        match e with
        | GuardEvent.take => true
        | GuardEvent.give => false
        | GuardEvent.call _ _ => held)
      held = held := by
  induction cs with
  | nil => rfl
  | cons c rest ih => simpa using ih

/-- In a sequence that is a take, a give and then calls only, the guard is
free before every call and at the end. -/
theorem guard_free_at_calls (cs : List Invocation) (pre post : List GuardEvent)
    (name : String) (cb : MessageCallback)
    (h : GuardEvent.take :: GuardEvent.give ::
        cs.map (fun c => GuardEvent.call c.subscriber c.callback) =
      pre ++ GuardEvent.call name cb :: post) :
    guardHeld pre = false := by
  cases pre with
  | nil => simp at h
  | cons e1 pre1 =>
    cases pre1 with
    | nil => simp at h
    | cons e2 pre2 =>
      simp only [List.cons_append, List.cons.injEq] at h
      obtain ⟨h1, h2, h3⟩ := h
      subst h1
      subst h2
      have hpre : pre2 <+: cs.map (fun c => GuardEvent.call c.subscriber c.callback) :=
        ⟨_, h3.symm⟩
      obtain ⟨cs1, hcs1, hmap⟩ : ∃ cs1, cs1 <+: cs ∧
          pre2 = cs1.map (fun c => GuardEvent.call c.subscriber c.callback) := by
        refine ⟨cs.take pre2.length, List.take_prefix _ _, ?_⟩
        rw [List.map_take]
        exact (List.prefix_iff_eq_take.1 hpre)
      rw [hmap]
      unfold guardHeld
      simp only [List.foldl_cons]
      exact foldl_guard_calls cs1 false

/-- C22. For every broker, topic and behaviour of the callbacks (which
may subscribe and unsubscribe on the same topic while they run): the calls
of one delivery are an initial part of the bucket of the topic as it was
when the delivery copied it, in order, and are the whole of it, with no
exception leaving, when no callback throws an exception outside the family
of `std::exception`; and the delivery gives the guard back before its
first call and does not take it again, so the guard is free before every
call and at the end. -/
theorem C22_snapshot_then_release (nl : NetworkLayer) (topic : String) (data : Option Nat)
    (len : Nat) (mem : Memory) (handlers : Handlers) :
    (nl.deliverMessageTraced topic data len mem handlers).1 =
      nl.deliverMessage topic data len mem handlers ∧
    (nl.deliverMessage topic data len mem handlers).calls <+:
      ((UMap.find nl.subscribers_ topic).getD []).map (callOf mem topic data len) ∧
    ((∀ i nl1, (handlers i nl1).2 ≠ CallOutcome.threwOther) →
      (nl.deliverMessage topic data len mem handlers).calls =
        ((UMap.find nl.subscribers_ topic).getD []).map (callOf mem topic data len) ∧
      (nl.deliverMessage topic data len mem handlers).escaped = false) ∧
    (∀ pre name cb post,
      (nl.deliverMessageTraced topic data len mem handlers).2 =
        pre ++ GuardEvent.call name cb :: post → guardHeld pre = false) ∧
    guardHeld (nl.deliverMessageTraced topic data len mem handlers).2 = false := by
  obtain ⟨ht1, ht2⟩ := deliverMessageTraced_eq nl topic data len mem handlers
  refine ⟨ht1, ?_, ?_, ?_, ?_⟩
  · cases hf : UMap.find nl.subscribers_ topic with
    | none => simp [deliverMessage, hf]
    | some b =>
      simp only [deliverMessage, hf, Option.getD_some]
      exact deliverLoop_prefix handlers mem topic data len b nl
  · intro hstd
    cases hf : UMap.find nl.subscribers_ topic with
    | none => simp [deliverMessage, hf]
    | some b =>
      simp only [deliverMessage, hf, Option.getD_some]
      exact deliverLoop_complete handlers mem topic data len hstd b nl
  · intro pre name cb post h
    rw [ht2] at h
    exact guard_free_at_calls _ pre post name cb h
  · rw [ht2]
    unfold guardHeld
    simp only [List.foldl_cons]
    exact foldl_guard_calls _ false

/-- Witness of C22: topic `"y"` has `"S1"` and `"S2"`; the callback of
`"S1"` unsubscribes `"S2"` and subscribes `"S3"`; the delivery still calls
`"S1"` and `"S2"` and not `"S3"`. -/
theorem C22_snapshot_then_release_witness :
    (((fresh.subscribe "y" "S1" (some 1)).2.subscribe "y" "S2" (some 2)).2.deliverMessage
        "y" (some 100) 1 (memWith 1) meddlingHandlers).calls =
      [("S1", some 1), ("S2", some 2)].map (callOf (memWith 1) "y" (some 100) 1) ∧
    (((fresh.subscribe "y" "S1" (some 1)).2.subscribe "y" "S2" (some 2)).2.deliverMessage
        "y" (some 100) 1 (memWith 1) meddlingHandlers).broker.subscribers_ =
      [("y", [("S1", some 1), ("S3", some 3)])] :=
  ⟨((C22_snapshot_then_release
      ((fresh.subscribe "y" "S1" (some 1)).2.subscribe "y" "S2" (some 2)).2
      "y" (some 100) 1 (memWith 1) meddlingHandlers).2.2.1
      (by intro i nl1; unfold meddlingHandlers; split <;> simp)).1.trans (by decide),
   by decide⟩

/-- A property of the broker that every call of a callback keeps is kept
by the loop of a delivery. -/
theorem deliverLoop_invariant (P : NetworkLayer → Prop) (handlers : Handlers) (mem : Memory)
    (topic : String) (data : Option Nat) (len : Nat)
    (hP : ∀ cb nl, P nl → P (invoke handlers cb nl).1)
    (snapshot : List (String × MessageCallback)) (nl : NetworkLayer) (h : P nl) :
    P (deliverLoop handlers mem topic data len snapshot nl).broker := by
  induction snapshot generalizing nl with
  | nil => exact h
  | cons p rest ih =>
    obtain ⟨name, cb⟩ := p
    have h1 := hP cb nl h
    rcases hr : invoke handlers cb nl with ⟨nl1, outcome⟩
    rw [hr] at h1
    cases outcome with
    | threwOther => simpa [deliverLoop, hr] using h1
    | returned => simpa [deliverLoop, hr] using ih nl1 h1
    | threwStdException => simpa [deliverLoop, hr] using ih nl1 h1

theorem noEmptyBucket_subscribe (nl : NetworkLayer) (t n : String) (cb : MessageCallback)
    (h : nl.NoEmptyBucket) : (nl.subscribe t n cb).2.NoEmptyBucket := by
  unfold subscribe
  split
  · exact h
  · split
    · exact h
    · intro p hp
      rcases mem_assign_weak _ _ _ p hp with hp1 | hp1
      · rw [hp1]
        exact assign_ne_nil _ _ _
      · exact h p hp1

theorem noEmptyBucket_unsubscribe (nl : NetworkLayer) (t n : String)
    (h : nl.NoEmptyBucket) : (nl.unsubscribe t n).2.NoEmptyBucket := by
  unfold unsubscribe
  split
  · exact h
  · split
    · exact h
    · split
      · rename_i bucket hf
        cases hb : (UMap.erase bucket n).isEmpty with
        | true =>
          simp only [hb, if_true]
          intro p hp
          exact h p (List.mem_filter.1 hp).1
        | false =>
          simp only [hb]
          intro p hp
          rcases mem_assign_weak _ _ _ p hp with hp1 | hp1
          · rw [hp1]
            intro hnil
            simp only at hnil
            rw [hnil] at hb
            simp at hb
          · exact h p hp1
      · exact h

theorem noEmptyBucket_init (nl : NetworkLayer) (mutex : Option Nat)
    (h : nl.NoEmptyBucket) : (nl.init mutex).2.NoEmptyBucket := by
  unfold init
  split
  · exact h
  · cases mutex with
    | none => exact h
    | some m => exact h

theorem noEmptyBucket_apply (c : ApiCall) (nl : NetworkLayer) (h : nl.NoEmptyBucket) :
    (c.apply nl).NoEmptyBucket := by
  cases c with
  | init mutex => exact noEmptyBucket_init nl mutex h
  | subscribe t n cb => exact noEmptyBucket_subscribe nl t n cb h
  | unsubscribe t n => exact noEmptyBucket_unsubscribe nl t n h
  | publish t d l p c => exact h

theorem noEmptyBucket_script (calls : List ApiCall) (nl : NetworkLayer)
    (h : nl.NoEmptyBucket) : (calls.foldl ApiCall.apply nl).NoEmptyBucket := by
  induction calls generalizing nl with
  | nil => exact h
  | cons c rest ih => exact ih (c.apply nl) (noEmptyBucket_apply c nl h)

theorem noEmptyBucket_step (step : BrokerStep) (nl : NetworkLayer) (h : nl.NoEmptyBucket) :
    (step.apply nl).NoEmptyBucket := by
  cases step with
  | api c => exact noEmptyBucket_apply c nl h
  | deliver topic data len mem scripts =>
    simp only [BrokerStep.apply, deliverMessage]
    split
    · refine deliverLoop_invariant NoEmptyBucket _ mem topic data len ?_ _ nl h
      intro cb nl1 h1
      cases cb with
      | none => exact h1
      | some i => exact noEmptyBucket_script _ nl1 h1
    · exact h

theorem noEmptyBucket_steps (steps : List BrokerStep) (nl : NetworkLayer)
    (h : nl.NoEmptyBucket) : (steps.foldl BrokerStep.apply nl).NoEmptyBucket := by
  induction steps generalizing nl with
  | nil => exact h
  | cons st rest ih => exact ih (st.apply nl) (noEmptyBucket_step st nl h)

/-- On a registry without empty bucket the three queries agree. -/
theorem queries_agree (nl : NetworkLayer) (t : String) (h : nl.NoEmptyBucket) :
    (nl.hasSubscribers t = true ↔ 0 < nl.getSubscriberCount t) ∧
    (0 < nl.getSubscriberCount t ↔ t ∈ nl.getTopics) := by
  cases hi : nl.initialized_ with
  | false => simp [hasSubscribers, getSubscriberCount, getTopics, hi]
  | true =>
    cases hf : UMap.find nl.subscribers_ t with
    | none =>
      have := not_mem_keys_of_find_none _ _ hf
      simp only [hasSubscribers, getSubscriberCount, getTopics, hi, hf]
      simpa using this
    | some b =>
      have hmem := mem_of_find _ _ _ hf
      have hb : b ≠ [] := h (t, b) hmem
      have hlen : 0 < b.length := List.length_pos.2 hb
      have htop : t ∈ nl.subscribers_.map Prod.fst := List.mem_map.2 ⟨(t, b), hmem, rfl⟩
      simp only [hasSubscribers, getSubscriberCount, getTopics, hi, hf]
      simp [hb, hlen, htop]

/-- C23. In every broker reached from a newly constructed one by `init`,
`subscribe`, `unsubscribe`, `publish` and runs of deliveries whose
callbacks act on the broker through these calls, no bucket of the registry
is empty; and for every topic `hasSubscribers` is true exactly when
`getSubscriberCount` is above 0, which is exactly when `getTopics` lists
the topic. The three queries are functions of the broker that return their
result only. -/
theorem C23_no_empty_bucket (steps : List BrokerStep) (t : String) :
    (reach steps).NoEmptyBucket ∧
    ((reach steps).hasSubscribers t = true ↔ 0 < (reach steps).getSubscriberCount t) ∧
    (0 < (reach steps).getSubscriberCount t ↔ t ∈ (reach steps).getTopics) := by
  have hne : (reach steps).NoEmptyBucket := by
    unfold reach
    refine noEmptyBucket_steps steps NetworkLayer.new ?_
    intro p hp
    simp [NetworkLayer.new] at hp
  exact ⟨hne, queries_agree _ t hne⟩

end NetworkLayer

/-! ## DataLayer: lazy eviction -/

namespace DataLayer

/-- What every reachable store satisfies: without initialisation it holds
nothing, and no entry has the empty key. -/
theorem sound_apply (s : DataLayer) (o : Op) (now : Nat)
    (h : (s.initialized_ = false → s.data_ = []) ∧ ∀ p ∈ s.data_, p.1 ≠ "") :
    ((o.apply s now).initialized_ = false → (o.apply s now).data_ = []) ∧
    ∀ p ∈ (o.apply s now).data_, p.1 ≠ "" := by
  have hread : ∀ key : String,
      (({ s with data_ := UMap.erase s.data_ key } : DataLayer).initialized_ = false →
        ({ s with data_ := UMap.erase s.data_ key } : DataLayer).data_ = []) ∧
      ∀ p ∈ ({ s with data_ := UMap.erase s.data_ key } : DataLayer).data_, p.1 ≠ "" := by
    intro key
    refine ⟨fun hi => ?_, fun p hp => h.2 p (List.mem_filter.1 hp).1⟩
    show UMap.erase s.data_ key = []
    rw [h.1 hi]
    rfl
  have hsweep :
      (s.initialized_ = false → s.data_.filter (fun p => !isExpired p.2 now) = []) ∧
      ∀ p ∈ s.data_.filter (fun p => !isExpired p.2 now), p.1 ≠ "" := by
    refine ⟨fun hi => ?_, fun p hp => h.2 p (List.mem_filter.1 hp).1⟩
    rw [h.1 hi]
    rfl
  have hwrite : ∀ (key : String) (entry : DataEntry),
      (key.isEmpty || !s.initialized_) = false →
      (({ s with data_ := UMap.assign s.data_ key entry } : DataLayer).initialized_ = false →
        ({ s with data_ := UMap.assign s.data_ key entry } : DataLayer).data_ = []) ∧
      ∀ p ∈ ({ s with data_ := UMap.assign s.data_ key entry } : DataLayer).data_,
        p.1 ≠ "" := by
    intro key entry hg
    have hinit : s.initialized_ = true := by
      cases hc : s.initialized_ with
      | true => rfl
      | false => simp [hc] at hg
    have hkey : key ≠ "" := by
      intro hh
      have : key.isEmpty = true := (String.isEmpty_iff key).2 hh
      simp [this] at hg
    refine ⟨fun hi => ?_, fun p hp => ?_⟩
    · exact absurd hinit (by simp [show s.initialized_ = false from hi])
    · rcases mem_assign_weak _ _ _ p hp with hp1 | hp1
      · rw [hp1]
        exact hkey
      · exact h.2 p hp1
  cases o with
  | set key value ttlMs =>
    cases hg : (key.isEmpty || !s.initialized_) with
    | true => simp only [Op.apply, set, hg]; exact h
    | false => simp only [Op.apply, set, hg]; exact hwrite key _ hg
  | get key value =>
    cases hg : (key.isEmpty || !s.initialized_) with
    | true => simp only [Op.apply, get, hg]; exact h
    | false =>
      cases hf : UMap.find s.data_ key with
      | none => simp only [Op.apply, get, hg, hf]; exact h
      | some e =>
        cases hx : isExpired e now with
        | false => simp only [Op.apply, get, hg, hf, hx]; exact h
        | true => simp only [Op.apply, get, hg, hf, hx]; exact hread key
  | del key =>
    cases hg : (key.isEmpty || !s.initialized_) with
    | true => simp only [Op.apply, del, hg]; exact h
    | false =>
      cases hf : UMap.find s.data_ key with
      | none => simp only [Op.apply, del, hg, hf]; exact h
      | some e => simp only [Op.apply, del, hg, hf]; exact hread key
  | «exists» key =>
    cases hg : (key.isEmpty || !s.initialized_) with
    | true => simp only [Op.apply, DataLayer.«exists», hg]; exact h
    | false =>
      cases hf : UMap.find s.data_ key with
      | none => simp only [Op.apply, DataLayer.«exists», hg, hf]; exact h
      | some e =>
        cases hx : isExpired e now with
        | false => simp only [Op.apply, DataLayer.«exists», hg, hf, hx]; exact h
        | true => simp only [Op.apply, DataLayer.«exists», hg, hf, hx]; exact hread key
  | keys =>
    cases hi : s.initialized_ with
    | false => simp only [Op.apply, keys, hi]; exact h
    | true =>
      simp only [Op.apply, keys, hi, keysScan_snd]
      exact ⟨fun hc => absurd hc (by simp), hsweep.2⟩
  | expire key ttlMs =>
    cases hg : (key.isEmpty || !s.initialized_) with
    | true => simp only [Op.apply, expire, hg]; exact h
    | false =>
      cases hf : UMap.find s.data_ key with
      | none => simp only [Op.apply, expire, hg, hf]; exact h
      | some e => simp only [Op.apply, expire, hg, hf]; exact hwrite key _ hg
  | ttl key =>
    cases hg : (key.isEmpty || !s.initialized_) with
    | true => simp only [Op.apply, ttl, hg]; exact h
    | false =>
      cases hf : UMap.find s.data_ key with
      | none => simp only [Op.apply, ttl, hg, hf]; exact h
      | some e =>
        cases hx : isExpired e now with
        | true => simp only [Op.apply, ttl, hg, hf, hx]; exact hread key
        | false =>
          by_cases h0 : e.expiryTime = 0
          · simp only [Op.apply, ttl, hg, hf, hx, h0]; exact h
          · simp only [Op.apply, ttl, hg, hf, hx, h0]; exact h
  | size => exact h
  | performCleanup =>
    cases hi : s.initialized_ with
    | false => simp only [Op.apply, performCleanup, hi]; exact h
    | true =>
      simp only [Op.apply, performCleanup, hi]
      exact ⟨fun hc => absurd hc (by simp), hsweep.2⟩

theorem sound_init (s : DataLayer) (cleanupIntervalMs : Nat) (mutex task : Option Nat)
    (h : (s.initialized_ = false → s.data_ = []) ∧ ∀ p ∈ s.data_, p.1 ≠ "") :
    ((s.init cleanupIntervalMs mutex task).2.initialized_ = false →
      (s.init cleanupIntervalMs mutex task).2.data_ = []) ∧
    ∀ p ∈ (s.init cleanupIntervalMs mutex task).2.data_, p.1 ≠ "" := by
  cases hi : s.initialized_ with
  | true =>
    have : s.init cleanupIntervalMs mutex task = (true, s) := by simp [init, hi]
    rw [this]
    exact h
  | false =>
    have hd : (s.init cleanupIntervalMs mutex task).2.data_ = s.data_ := by
      cases mutex with
      | none => simp [init, hi]
      | some m =>
        cases task with
        | none => simp [init, hi]
        | some t => simp [init, hi]
    rw [hd]
    exact ⟨fun _ => h.1 hi, h.2⟩

theorem sound_reach (steps : List (StoreStep × Nat)) :
    ((reach steps).initialized_ = false → (reach steps).data_ = []) ∧
    ∀ p ∈ (reach steps).data_, p.1 ≠ "" := by
  have hgen : ∀ (steps : List (StoreStep × Nat)) (s : DataLayer),
      ((s.initialized_ = false → s.data_ = []) ∧ ∀ p ∈ s.data_, p.1 ≠ "") →
      (((steps.foldl (fun s p => p.1.apply s p.2) s).initialized_ = false →
        (steps.foldl (fun s p => p.1.apply s p.2) s).data_ = []) ∧
      ∀ p ∈ (steps.foldl (fun s p => p.1.apply s p.2) s).data_, p.1 ≠ "") := by
    intro steps
    induction steps with
    | nil => intro s h; exact h
    | cons st rest ih =>
      intro s h
      obtain ⟨step, now⟩ := st
      refine ih _ ?_
      cases step with
      | init c m t => exact sound_init s c m t h
      | op o => exact sound_apply s o now h
  exact hgen steps DataLayer.new ⟨fun _ => rfl, fun p hp => by simp [DataLayer.new] at hp⟩

theorem bound_key_of_reach (steps : List (StoreStep × Nat)) (k : String) (e : DataEntry)
    (h : UMap.find (reach steps).data_ k = some e) :
    (reach steps).initialized_ = true ∧ k ≠ "" := by
  obtain ⟨h1, h2⟩ := sound_reach steps
  have hmem := mem_of_find _ _ _ h
  constructor
  · cases hc : (reach steps).initialized_ with
    | true => rfl
    | false =>
      rw [h1 hc] at hmem
      simp at hmem
  · exact h2 (k, e) hmem

/-- C28. For every store, key `k` and clock value, each of `get`, `exists`
and `ttl` of `k` leaves the binding of every other key as it is, and leaves
the store as it is when `k` is unbound; on an initialised store and for a
non-empty `k` bound to an entry `e`, each of them leaves `k` unbound when
`e` is expired at the clock value and leaves the store as it is when `e` is
not; and in every store reached from a newly constructed one by `init`,
operations and sweeps, a key that is bound is not empty and the store is
initialised. -/
theorem C28_lazy_eviction_confined (s : DataLayer) (k : String) (out : Bytes) (now : Nat)
    (steps : List (StoreStep × Nat)) :
    (∀ k', k' ≠ k →
      UMap.find (s.get k out now).2.2.data_ k' = UMap.find s.data_ k' ∧
      UMap.find (s.«exists» k now).2.data_ k' = UMap.find s.data_ k' ∧
      UMap.find (s.ttl k now).2.data_ k' = UMap.find s.data_ k') ∧
    (s.initialized_ = true → k ≠ "" → ∀ e, UMap.find s.data_ k = some e →
      (isExpired e now = true →
        UMap.find (s.get k out now).2.2.data_ k = none ∧
        UMap.find (s.«exists» k now).2.data_ k = none ∧
        UMap.find (s.ttl k now).2.data_ k = none) ∧
      (isExpired e now = false →
        (s.get k out now).2.2 = s ∧ (s.«exists» k now).2 = s ∧ (s.ttl k now).2 = s)) ∧
    (UMap.find s.data_ k = none →
      (s.get k out now).2.2 = s ∧ (s.«exists» k now).2 = s ∧ (s.ttl k now).2 = s) ∧
    (∀ e, UMap.find (reach steps).data_ k = some e →
      (reach steps).initialized_ = true ∧ k ≠ "") := by
  refine ⟨?_, ?_, ?_, fun e he => bound_key_of_reach steps k e he⟩
  · intro k' hk'
    cases hg : (k.isEmpty || !s.initialized_) with
    | true => simp [get, DataLayer.«exists», ttl, hg]
    | false =>
      cases hf : UMap.find s.data_ k with
      | none => simp [get, DataLayer.«exists», ttl, hg, hf]
      | some e =>
        cases hx : isExpired e now with
        | true =>
          simp [get, DataLayer.«exists», ttl, hg, hf, hx, UMap.find_erase_ne _ _ _ hk']
        | false =>
          by_cases h0 : e.expiryTime = 0
          · simp [get, DataLayer.«exists», ttl, hg, hf, hx, h0]
          · simp [get, DataLayer.«exists», ttl, hg, hf, hx, h0]
  · intro hinit hk e hf
    have hke := isEmpty_eq_false_of_ne k hk
    constructor
    · intro hx
      simp [get, DataLayer.«exists», ttl, hke, hinit, hf, hx, UMap.find_erase_self]
    · intro hx
      by_cases h0 : e.expiryTime = 0
      · simp [get, DataLayer.«exists», ttl, hke, hinit, hf, hx, h0]
      · simp [get, DataLayer.«exists», ttl, hke, hinit, hf, hx, h0]
  · intro hf
    cases hg : (k.isEmpty || !s.initialized_) with
    | true => simp [get, DataLayer.«exists», ttl, hg]
    | false => simp [get, DataLayer.«exists», ttl, hg, hf]

/-- Witness of C28: with `"a"` and `"b"` both expired at clock 100, `get`
of `"a"` removes `"a"` and leaves `"b"` bound. -/
theorem C28_lazy_eviction_confined_witness :
    UMap.find (((fresh.set "a" [1] 10 0).2.set "b" [2] 20 0).2.get "a" [] 100).2.2.data_ "b"
      = UMap.find ((fresh.set "a" [1] 10 0).2.set "b" [2] 20 0).2.data_ "b" ∧
    UMap.find (((fresh.set "a" [1] 10 0).2.set "b" [2] 20 0).2.get "a" [] 100).2.2.data_ "a"
      = none :=
  ⟨((C28_lazy_eviction_confined ((fresh.set "a" [1] 10 0).2.set "b" [2] 20 0).2 "a" [] 100
      []).1
      "b" (by decide)).1,
   (((C28_lazy_eviction_confined ((fresh.set "a" [1] 10 0).2.set "b" [2] 20 0).2 "a" []
      100 []).2.1 (by decide) (by decide)
      { value := [1], expiryTime := 10, createdTime := 0 } (by decide)).1 (by decide)).1⟩

end DataLayer

end TAF
